import Mathlib

/-!
# MyStatefulSet controller and admission webhook

A shallow embedding of `internal/controller/mystatefulset_controller.go` and
`internal/webhook/v1/mystatefulset_webhook.go`.

* Go `map[string]string` is an association list with unique keys (`AList`);
  indexing a missing key yields the empty string, as in Go.
* The embedded `client.Client` is an interface in the source; here it is a
  record of operations over an abstract state. `fakeClient` is the in-memory
  object tracker the controller tests run against; `staleClient` answers
  list requests from a snapshot taken earlier (a cache-backed reader).
* `int32` replica counts are integers; the fill loop runs over the ordinals
  `0 .. replicas-1`, which never overflow.
-/

namespace Sts

/-! ## Data model -/

/-- Go `map[string]string`. -/
abbrev StrMap := AList (fun _ : String => String)

/-- Go map indexing `m[key]`: the zero value `""` when the key is absent. -/
def StrMap.index (m : StrMap) (key : String) : String :=
  (m.lookup key).getD ""

/-- The errors the controller distinguishes: the two API status reasons it
tests for, and everything else (carrying its message). -/
inductive Error where
  | NotFound
  | AlreadyExists
  | Message (msg : String)
deriving DecidableEq, Repr

def IsNotFound : Error → Bool
  | .NotFound => true
  | _ => false

def IsAlreadyExists : Error → Bool
  | .AlreadyExists => true
  | _ => false

structure Container where
  Name : String
  Image : String
deriving DecidableEq, Repr

structure PodSpec where
  Containers : List Container
deriving DecidableEq, Repr

structure OwnerReference where
  Kind : String
  Name : String
  Controller : Bool
  BlockOwnerDeletion : Bool
deriving DecidableEq, Repr

structure PodTemplateSpec where
  Labels : StrMap
  Annotations : StrMap
  Spec : PodSpec

structure Pod where
  Name : String
  Namespace : String
  Labels : StrMap
  Annotations : StrMap
  OwnerReferences : List OwnerReference
  Spec : PodSpec

structure PersistentVolumeClaimSpec where
  AccessModes : List String
  Storage : Nat
deriving DecidableEq, Repr

structure PersistentVolumeClaim where
  Name : String
  Namespace : String
  Labels : StrMap
  Annotations : StrMap
  OwnerReferences : List OwnerReference
  Spec : PersistentVolumeClaimSpec

structure MyStatefulSetSpec where
  Replicas : Option Int
  Template : PodTemplateSpec
  VolumeClaimTemplates : List PersistentVolumeClaim
  ServiceName : String

structure MyStatefulSet where
  Name : String
  Namespace : String
  DeletionTimestamp : Option Nat
  Finalizers : Option (List String)
  Spec : MyStatefulSetSpec

/-- The request `ctrl.Request`: a namespaced name. -/
structure Request where
  Namespace : String
  Name : String
deriving DecidableEq, Repr

/-- The requeue hint `ctrl.Result`. -/
structure Result where
  Requeue : Bool := false
  RequeueAfter : Nat := 0
deriving DecidableEq, Repr

/-! ## The client interface -/

/-- The part of `client.Client` the reconciler uses, over a state `σ`.
Writes return the new state together with the error, if any. -/
structure Client (σ : Type) where
  Get : σ → String → String → Except Error MyStatefulSet
  ListPods : σ → String → StrMap → Except Error (List Pod)
  CreatePod : σ → Pod → Option Error × σ
  CreatePVC : σ → PersistentVolumeClaim → Option Error × σ
  DeletePod : σ → Pod → Option Error × σ
  DeletePVC : σ → PersistentVolumeClaim → Option Error × σ

/-! ## The controller -/

def ownerLabel : String := "mystatefulset-name"

/-- `fmt.Sprintf("%s-%d", name, i)`. -/
def podName (name : String) (i : Nat) : String :=
  name ++ "-" ++ toString i

/-- `fmt.Sprintf("%s-%s-%d", template, name, ordinal)`. -/
def pvcName (template name : String) (ordinal : Nat) : String :=
  template ++ "-" ++ name ++ "-" ++ toString ordinal

/-- `fmt.Sprintf("%s-%s", template, podName)` of `deletePVCs`. -/
def pvcNameOfPod (template pod : String) : String :=
  template ++ "-" ++ pod

/-- Copies every entry into a fresh map, then sets the owner label. -/
def createLabels (oldMap : StrMap) (name : String) : StrMap :=
  (oldMap.entries.foldl (fun labels e => labels.insert e.1 e.2) (∅ : StrMap)).insert
    ownerLabel name

/-- `metav1.NewControllerRef(myStatefulSet, GroupVersion.WithKind("MyStatefulSet"))`. -/
def NewControllerRef (owner : MyStatefulSet) : OwnerReference :=
  { Kind := "MyStatefulSet", Name := owner.Name, Controller := true, BlockOwnerDeletion := true }

def getMyStatefulSet {σ : Type} (r : Client σ) (s : σ) (req : Request) :
    Except Error MyStatefulSet :=
  r.Get s req.Namespace req.Name

def listPods {σ : Type} (r : Client σ) (s : σ) (req : Request) (myStatefulSet : MyStatefulSet) :
    Except Error (List Pod) :=
  r.ListPods s req.Namespace ((∅ : StrMap).insert ownerLabel myStatefulSet.Name)

def podExists (podName : String) (podList : List Pod) : Bool :=
  podList.any (fun pod => pod.Name == podName)

/-- The claim object `createPVCs` builds for one template. -/
def newPVC (req : Request) (myStatefulSet : MyStatefulSet) (pvcTemplate : PersistentVolumeClaim)
    (ordinal : Nat) : PersistentVolumeClaim :=
  { Name := pvcName pvcTemplate.Name myStatefulSet.Name ordinal
    Namespace := req.Namespace
    Labels := createLabels pvcTemplate.Labels myStatefulSet.Name
    Annotations := pvcTemplate.Annotations
    OwnerReferences := [NewControllerRef myStatefulSet]
    Spec := pvcTemplate.Spec }

/-- The loop of `createPVCs` over the remaining templates. -/
def createPVCsLoop {σ : Type} (r : Client σ) (req : Request) (myStatefulSet : MyStatefulSet)
    (ordinal : Nat) : List PersistentVolumeClaim → σ → Option Error × σ
  | [], s => (none, s)
  | pvcTemplate :: rest, s =>
    match r.CreatePVC s (newPVC req myStatefulSet pvcTemplate ordinal) with
    | (some err, s1) =>
      if !IsAlreadyExists err then (some err, s1)
      else createPVCsLoop r req myStatefulSet ordinal rest s1
    | (none, s1) => createPVCsLoop r req myStatefulSet ordinal rest s1

def createPVCs {σ : Type} (r : Client σ) (s : σ) (req : Request) (myStatefulSet : MyStatefulSet)
    (ordinal : Nat) : Option Error × σ :=
  createPVCsLoop r req myStatefulSet ordinal myStatefulSet.Spec.VolumeClaimTemplates s

/-- The pod object `createPod` builds. -/
def newPod (req : Request) (myStatefulSet : MyStatefulSet) (podName : String) : Pod :=
  { Name := podName
    Namespace := req.Namespace
    Labels := createLabels myStatefulSet.Spec.Template.Labels myStatefulSet.Name
    Annotations := myStatefulSet.Spec.Template.Annotations
    OwnerReferences := [NewControllerRef myStatefulSet]
    Spec := myStatefulSet.Spec.Template.Spec }

def createPod {σ : Type} (r : Client σ) (s : σ) (req : Request) (myStatefulSet : MyStatefulSet)
    (podName : String) : Option Error × σ :=
  match r.CreatePod s (newPod req myStatefulSet podName) with
  | (some err, s1) => (some err, s1)
  | (none, s1) => (none, s1)

/-- The loop of `createMissingPodsAndPVCs` over the remaining ordinals. -/
def createMissingLoop {σ : Type} (r : Client σ) (req : Request) (myStatefulSet : MyStatefulSet)
    (podList : List Pod) : List Nat → σ → Option Error × σ
  | [], s => (none, s)
  | i :: rest, s =>
    if !podExists (podName myStatefulSet.Name i) podList then
      match createPVCs r s req myStatefulSet i with
      | (some err, s1) => (some err, s1)
      | (none, s1) =>
        match createPod r s1 req myStatefulSet (podName myStatefulSet.Name i) with
        | (some err, s2) => (some err, s2)
        | (none, s2) => createMissingLoop r req myStatefulSet podList rest s2
    else createMissingLoop r req myStatefulSet podList rest s

/-- Runs `for i := int32(0); i < desiredReplicas; i++`. -/
def createMissingPodsAndPVCs {σ : Type} (r : Client σ) (s : σ) (req : Request)
    (myStatefulSet : MyStatefulSet) (podList : List Pod) (desiredReplicas : Int) :
    Option Error × σ :=
  createMissingLoop r req myStatefulSet podList (List.range desiredReplicas.toNat) s

/-- The image loop of `podNeedsUpdate`; it runs after the lengths were found
equal, so every index has a template container. -/
def imagesDiffer : List Container → List Container → Bool
  | container :: cs, desiredContainer :: ds =>
    if container.Image != desiredContainer.Image then true else imagesDiffer cs ds
  | _, _ => false

def podNeedsUpdate (pod : Pod) (desiredPodTemplate : PodTemplateSpec) : Bool :=
  if pod.Spec.Containers.length != desiredPodTemplate.Spec.Containers.length then true
  else if imagesDiffer pod.Spec.Containers desiredPodTemplate.Spec.Containers then true
  else if desiredPodTemplate.Labels.entries.any
      (fun e => pod.Labels.index e.1 != e.2) then true
  else if desiredPodTemplate.Annotations.entries.any
      (fun e => pod.Annotations.index e.1 != e.2) then true
  else false

/-- The scan of `updatePods`; the three-second sleep has no effect on the
state and is left out. -/
def updatePods {σ : Type} (r : Client σ) (s : σ) (myStatefulSet : MyStatefulSet) :
    List Pod → Request → Option Error × σ
  | [], _ => (none, s)
  | pod :: rest, req =>
    if podNeedsUpdate pod myStatefulSet.Spec.Template then
      match r.DeletePod s pod with
      | (some err, s1) => (some err, s1)
      | (none, s1) =>
        match createPod r s1 req myStatefulSet pod.Name with
        | (some err, s2) => (some err, s2)
        | (none, s2) => (none, s2)
    else updatePods r s myStatefulSet rest req

/-- The claim key `deletePVCs` deletes for one template. -/
def pvcToDelete (myStatefulSet : MyStatefulSet) (pvcTemplate : PersistentVolumeClaim)
    (podName : String) : PersistentVolumeClaim :=
  { Name := pvcNameOfPod pvcTemplate.Name podName
    Namespace := myStatefulSet.Namespace
    Labels := ∅
    Annotations := ∅
    OwnerReferences := []
    Spec := { AccessModes := [], Storage := 0 } }

def deletePVCsLoop {σ : Type} (r : Client σ) (myStatefulSet : MyStatefulSet) (podName : String) :
    List PersistentVolumeClaim → σ → Option Error × σ
  | [], s => (none, s)
  | pvcTemplate :: rest, s =>
    match r.DeletePVC s (pvcToDelete myStatefulSet pvcTemplate podName) with
    | (some err, s1) =>
      if !IsNotFound err then (some err, s1)
      else deletePVCsLoop r myStatefulSet podName rest s1
    | (none, s1) => deletePVCsLoop r myStatefulSet podName rest s1

def deletePVCs {σ : Type} (r : Client σ) (s : σ) (myStatefulSet : MyStatefulSet)
    (podName : String) : Option Error × σ :=
  deletePVCsLoop r myStatefulSet podName myStatefulSet.Spec.VolumeClaimTemplates s

/-- The loop of `cleanupMyStatefulSet` over the listed pods. -/
def cleanupLoop {σ : Type} (r : Client σ) (myStatefulSet : MyStatefulSet) :
    List Pod → σ → Option Error × σ
  | [], s => (none, s)
  | pod :: rest, s =>
    match r.DeletePod s pod with
    | (some err, s1) => (some err, s1)
    | (none, s1) =>
      match deletePVCs r s1 myStatefulSet pod.Name with
      | (some err, s2) => (some err, s2)
      | (none, s2) => cleanupLoop r myStatefulSet rest s2

def cleanupMyStatefulSet {σ : Type} (r : Client σ) (s : σ) (myStatefulSet : MyStatefulSet)
    (req : Request) : (Result × Option Error) × σ :=
  match listPods r s req myStatefulSet with
  | .error err => (({}, some err), s)
  | .ok podList =>
    match cleanupLoop r myStatefulSet podList s with
    | (some err, s1) => (({}, some err), s1)
    | (none, s1) => (({}, none), s1)

def missingReplicas : String := "配置缺少期望的副本数量"

def Reconcile {σ : Type} (r : Client σ) (s : σ) (req : Request) : (Result × Option Error) × σ :=
  match getMyStatefulSet r s req with
  | .error err =>
    if IsNotFound err then (({}, none), s) else (({}, some err), s)
  | .ok myStatefulSet =>
    if myStatefulSet.DeletionTimestamp.isSome || myStatefulSet.Finalizers.isSome then
      cleanupMyStatefulSet r s myStatefulSet req
    else
      match myStatefulSet.Spec.Replicas with
      | none => (({}, some (.Message missingReplicas)), s)
      | some desiredReplicas =>
        match listPods r s req myStatefulSet with
        | .error err => (({}, some err), s)
        | .ok podList =>
          match createMissingPodsAndPVCs r s req myStatefulSet podList desiredReplicas with
          | (some err, s1) => (({}, some err), s1)
          | (none, s1) =>
            match updatePods r s1 myStatefulSet podList req with
            | (some err, s2) => (({}, some err), s2)
            | (none, s2) => (({}, none), s2)

/-! ## The admission webhook -/

/-- A `runtime.Object`: a MyStatefulSet, or an object of another type (named). -/
inductive RuntimeObject where
  | mystatefulset (obj : MyStatefulSet)
  | other (typeName : String)

abbrev Warnings := List String

def replicasTooSmall : String := "replicas must be greater than or equal to 1"

def ValidateCreate : RuntimeObject → Warnings × Option Error
  | .other typeName =>
    ([], some (.Message ("expected a MyStatefulSet object but got " ++ typeName)))
  | .mystatefulset mystatefulset =>
    match mystatefulset.Spec.Replicas with
    | some replicas =>
      if replicas < 1 then ([], some (.Message replicasTooSmall)) else ([], none)
    | none => ([], none)

def ValidateUpdate (_oldObj newObj : RuntimeObject) : Warnings × Option Error :=
  match newObj with
  | .other typeName =>
    ([], some (.Message ("expected a MyStatefulSet object for the newObj but got " ++ typeName)))
  | .mystatefulset newStatefulset =>
    match newStatefulset.Spec.Replicas with
    | some replicas =>
      if replicas < 1 then ([], some (.Message replicasTooSmall)) else ([], none)
    | none => ([], none)

/-- The defaulter works on the object in place: it returns the error, if
any, together with the object as it is afterwards. -/
def Default : RuntimeObject → Option Error × RuntimeObject
  | .other typeName =>
    (some (.Message ("expected a MyStatefulSet object but got " ++ typeName)), .other typeName)
  | .mystatefulset mystatefulset =>
    match mystatefulset.Spec.Replicas with
    | none =>
      (none, .mystatefulset
        { mystatefulset with Spec := { mystatefulset.Spec with Replicas := some 1 } })
    | some _ => (none, .mystatefulset mystatefulset)

/-! ## The in-memory store -/

/-- A write call received by the store. -/
inductive Call where
  | createPod (ns name : String)
  | createPVC (ns name : String)
  | deletePod (ns name : String)
  | deletePVC (ns name : String)
deriving DecidableEq, Repr

/-- The object tracker: stored objects in insertion order and the write
calls received so far. -/
structure Store where
  objs : List MyStatefulSet
  pods : List Pod
  pvcs : List PersistentVolumeClaim
  log : List Call

def Pod.hasKey (ns name : String) (p : Pod) : Bool :=
  p.Namespace == ns && p.Name == name

def PersistentVolumeClaim.hasKey (ns name : String) (c : PersistentVolumeClaim) : Bool :=
  c.Namespace == ns && c.Name == name

/-- Label selector built by `client.MatchingLabels`: every selector entry is
present on the object with the same value. -/
def matchesLabels (sel labels : StrMap) : Bool :=
  sel.entries.all (fun e => labels.lookup e.1 == some e.2)

def Store.get (s : Store) (ns name : String) : Except Error MyStatefulSet :=
  match s.objs.find? (fun o => o.Namespace == ns && o.Name == name) with
  | some o => .ok o
  | none => .error .NotFound

def Store.listPods (s : Store) (ns : String) (sel : StrMap) : Except Error (List Pod) :=
  .ok (s.pods.filter (fun p => p.Namespace == ns && matchesLabels sel p.Labels))

def Store.createPod (s : Store) (p : Pod) : Option Error × Store :=
  if s.pods.any (Pod.hasKey p.Namespace p.Name) then
    (some .AlreadyExists, { s with log := s.log ++ [.createPod p.Namespace p.Name] })
  else
    (none, { s with pods := s.pods ++ [p], log := s.log ++ [.createPod p.Namespace p.Name] })

def Store.createPVC (s : Store) (c : PersistentVolumeClaim) : Option Error × Store :=
  if s.pvcs.any (PersistentVolumeClaim.hasKey c.Namespace c.Name) then
    (some .AlreadyExists, { s with log := s.log ++ [.createPVC c.Namespace c.Name] })
  else
    (none, { s with pvcs := s.pvcs ++ [c], log := s.log ++ [.createPVC c.Namespace c.Name] })

def Store.deletePod (s : Store) (p : Pod) : Option Error × Store :=
  if s.pods.any (Pod.hasKey p.Namespace p.Name) then
    (none, { s with pods := s.pods.filter (fun q => !Pod.hasKey p.Namespace p.Name q),
                    log := s.log ++ [.deletePod p.Namespace p.Name] })
  else
    (some .NotFound, { s with log := s.log ++ [.deletePod p.Namespace p.Name] })

def Store.deletePVC (s : Store) (c : PersistentVolumeClaim) : Option Error × Store :=
  if s.pvcs.any (PersistentVolumeClaim.hasKey c.Namespace c.Name) then
    (none, { s with pvcs := s.pvcs.filter
                      (fun d => !PersistentVolumeClaim.hasKey c.Namespace c.Name d),
                    log := s.log ++ [.deletePVC c.Namespace c.Name] })
  else
    (some .NotFound, { s with log := s.log ++ [.deletePVC c.Namespace c.Name] })

/-- The client of the controller tests: every call goes to the store. -/
def fakeClient : Client Store :=
  { Get := Store.get
    ListPods := Store.listPods
    CreatePod := Store.createPod
    CreatePVC := Store.createPVC
    DeletePod := Store.deletePod
    DeletePVC := Store.deletePVC }

/-- A client whose list calls are answered from an earlier snapshot of the
pods while every other call goes to the store. -/
def staleClient (snapshot : List Pod) : Client Store :=
  { fakeClient with
    ListPods := fun _ ns sel =>
      .ok (snapshot.filter (fun p => p.Namespace == ns && matchesLabels sel p.Labels)) }

/-- The pods of namespace `ns` carrying the owner-correlation label of `owner`. -/
def ownedPods (s : Store) (ns owner : String) : List Pod :=
  s.pods.filter (fun p => p.Namespace == ns && p.Labels.lookup ownerLabel == some owner)

/-- The claims of namespace `ns` carrying the owner-correlation label of `owner`. -/
def ownedPVCs (s : Store) (ns owner : String) : List PersistentVolumeClaim :=
  s.pvcs.filter (fun c => c.Namespace == ns && c.Labels.lookup ownerLabel == some owner)

/-! ## Divergence as the specification words it, and as the code decides it -/

/-- Divergence in the specification's words: a template key counts as soon as
it is missing from the instance or carries another value there. -/
def divergesAsWorded (pod : Pod) (tpl : PodTemplateSpec) : Prop :=
  pod.Spec.Containers.length ≠ tpl.Spec.Containers.length ∨
  (∃ (i : Nat) (c d : Container), pod.Spec.Containers[i]? = some c ∧ tpl.Spec.Containers[i]? = some d ∧
    c.Image ≠ d.Image) ∨
  (∃ k v, tpl.Labels.lookup k = some v ∧ pod.Labels.lookup k ≠ some v) ∨
  (∃ k v, tpl.Annotations.lookup k = some v ∧ pod.Annotations.lookup k ≠ some v)

/-- Divergence as the code decides it: the instance's value for a template
key is read with Go map indexing, so a missing key reads as the empty string. -/
def divergesAsIndexed (pod : Pod) (tpl : PodTemplateSpec) : Prop :=
  pod.Spec.Containers.length ≠ tpl.Spec.Containers.length ∨
  (∃ (i : Nat) (c d : Container), pod.Spec.Containers[i]? = some c ∧ tpl.Spec.Containers[i]? = some d ∧
    c.Image ≠ d.Image) ∨
  (∃ k v, tpl.Labels.lookup k = some v ∧ pod.Labels.index k ≠ v) ∨
  (∃ k v, tpl.Annotations.lookup k = some v ∧ pod.Annotations.index k ≠ v)

/-! ## Sample objects -/

def nginx : Container := { Name := "nginx", Image := "nginx:latest" }

/-- A template with one container and one label whose value is empty. -/
def emptyValueTemplate : PodTemplateSpec :=
  { Labels := (∅ : StrMap).insert "tier" "", Annotations := ∅, Spec := { Containers := [nginx] } }

/-- An instance with the template's container and no labels at all. -/
def barePod : Pod :=
  { Name := "web-0", Namespace := "default", Labels := ∅, Annotations := ∅,
    OwnerReferences := [], Spec := { Containers := [nginx] } }

/-- The instance `pod` after gaining the labels `extraLabels` and the
annotations `extraAnnotations` (a gained key replaces an old value). -/
def withExtras (pod : Pod) (extraLabels extraAnnotations : StrMap) : Pod :=
  { pod with Labels := extraLabels ∪ pod.Labels, Annotations := extraAnnotations ∪ pod.Annotations }

/-- An instance matching `emptyValueTemplate`. -/
def tierPod : Pod :=
  { barePod with Labels := (∅ : StrMap).insert "tier" "" }

/-- A desired-state object named `web` with the given replica count. -/
def webSet (replicas : Option Int) : MyStatefulSet :=
  { Name := "web", Namespace := "default", DeletionTimestamp := none, Finalizers := none,
    Spec := { Replicas := replicas,
              Template := { Labels := (∅ : StrMap).insert "app" "web", Annotations := ∅,
                            Spec := { Containers := [nginx] } },
              VolumeClaimTemplates := [], ServiceName := "web" } }

/-- The ordinals of `l` for which the fill loop creates an instance. -/
def missingOrdinals (name : String) (podList : List Pod) (l : List Nat) : List Nat :=
  l.filter (fun i => !podExists (podName name i) podList)

/-- The object is marked for deletion in the sense of `Reconcile`: the
deletion timestamp is set or the finalizer list is non-nil. -/
def markedForDeletion (m : MyStatefulSet) : Bool :=
  m.DeletionTimestamp.isSome || m.Finalizers.isSome

def webReq : Request := { Namespace := "default", Name := "web" }

/-- The object `web`, marked for deletion through a finalizer. -/
def finalizedSet (replicas : Option Int) : MyStatefulSet :=
  { webSet replicas with Finalizers := some ["test.finalizer"] }

/-- An instance owned by `web`, running the image `image`. -/
def webPod (name image : String) : Pod :=
  { Name := name, Namespace := "default",
    Labels := ((∅ : StrMap).insert "app" "web").insert ownerLabel "web", Annotations := ∅,
    OwnerReferences := [NewControllerRef (webSet none)],
    Spec := { Containers := [{ Name := "nginx", Image := image }] } }

/-- A store holding one desired-state object and the given instances. -/
def storeOf (m : MyStatefulSet) (pods : List Pod) : Store :=
  { objs := [m], pods := pods, pvcs := [], log := [] }

/-- A claim template named `data`. -/
def dataClaim : PersistentVolumeClaim :=
  { Name := "data", Namespace := "", Labels := ∅, Annotations := ∅, OwnerReferences := [],
    Spec := { AccessModes := ["ReadWriteOnce"], Storage := 100 } }

/-- The object `web` with two replicas and the claim template `data`. -/
def webSetWithClaim : MyStatefulSet :=
  { webSet (some 2) with
    Spec := { (webSet (some 2)).Spec with VolumeClaimTemplates := [dataClaim] } }

/-- The object `web` with one replica whose template carries the owner
label itself, with the value `other`. -/
def clashingSet : MyStatefulSet :=
  { webSet (some 1) with
    Spec := { (webSet (some 1)).Spec with
      Template := { (webSet (some 1)).Spec.Template with
        Labels := (∅ : StrMap).insert ownerLabel "other" } } }

/-- The object `web` with three replicas. -/
def webSet3 : MyStatefulSet := webSet (some 3)

/-- Three instances of `web`, the last two on an outdated image. -/
def mixedPods : List Pod :=
  [webPod "web-0" "nginx:latest", webPod "web-1" "nginx:1.19", webPod "web-2" "nginx:1.19"]

/-- A claim carrying the owner label of `web`, left from an earlier instance. -/
def orphanClaim : PersistentVolumeClaim :=
  { Name := "data-web-0", Namespace := "default",
    Labels := (∅ : StrMap).insert ownerLabel "web", Annotations := ∅,
    OwnerReferences := [NewControllerRef (webSet none)],
    Spec := { AccessModes := ["ReadWriteOnce"], Storage := 100 } }

/-- The object `web` with the claim template `data`, marked for deletion. -/
def finalizedSetWithClaim : MyStatefulSet :=
  { webSetWithClaim with Finalizers := some ["test.finalizer"] }

/-- The store after `web` was filled with two instances and their claims. -/
def filledStore : Store :=
  { objs := [finalizedSetWithClaim],
    pods := [webPod "web-0" "nginx:latest", webPod "web-1" "nginx:latest"],
    pvcs := [orphanClaim, { orphanClaim with Name := "data-web-1" }], log := [] }

/-- A store holding no desired-state object, only a stray instance. -/
def objectlessStore : Store :=
  { objs := [], pods := [webPod "web-0" "nginx:latest"], pvcs := [], log := [] }

/-- A client whose reads all fail with `err` and whose writes do nothing. -/
def failingClient (err : Error) : Client Unit :=
  { Get := fun _ _ _ => .error err
    ListPods := fun _ _ _ => .error err
    CreatePod := fun _ _ => (some err, ())
    CreatePVC := fun _ _ => (some err, ())
    DeletePod := fun _ _ => (some err, ())
    DeletePVC := fun _ _ => (some err, ()) }

/-- Reads one more decimal digit: the value so far times ten plus the digit. -/
def readDigit (acc : Nat) (c : Char) : Nat :=
  acc * 10 + (c.toNat - 48)

/-! ## Lemmas on maps -/

theorem imagesDiffer_iff (l₁ l₂ : List Container) :
    imagesDiffer l₁ l₂ = true ↔
      ∃ (i : Nat) (c d : Container), l₁[i]? = some c ∧ l₂[i]? = some d ∧ c.Image ≠ d.Image := by
  induction l₁ generalizing l₂ with
  | nil => simp [imagesDiffer]
  | cons a l₁ ih =>
    cases l₂ with
    | nil => simp [imagesDiffer]
    | cons b l₂ =>
      simp only [imagesDiffer]
      by_cases hab : a.Image = b.Image
      · simp only [bne_iff_ne, ne_eq, hab, not_true_eq_false, if_false, ih]
        constructor
        · rintro ⟨i, c, d, h1, h2, h3⟩
          exact ⟨i + 1, c, d, by simpa using h1, by simpa using h2, h3⟩
        · rintro ⟨i, c, d, h1, h2, h3⟩
          cases i with
          | zero =>
            simp only [List.getElem?_cons_zero, Option.some.injEq] at h1 h2
            subst h1 h2
            exact absurd hab h3
          | succ i => exact ⟨i, c, d, by simpa using h1, by simpa using h2, h3⟩
      · simp only [bne_iff_ne, ne_eq, hab, not_false_eq_true, if_true, true_iff]
        exact ⟨0, a, b, by simp, by simp, hab⟩

theorem any_entries_iff (m : StrMap) (f : String → String → Bool) :
    m.entries.any (fun e => f e.1 e.2) = true ↔ ∃ k v, m.lookup k = some v ∧ f k v = true := by
  rw [List.any_eq_true]
  constructor
  · rintro ⟨⟨k, v⟩, hmem, hf⟩
    exact ⟨k, v, by simpa using (AList.mem_lookup_iff.2 hmem), hf⟩
  · rintro ⟨k, v, hl, hf⟩
    exact ⟨⟨k, v⟩, AList.mem_lookup_iff.1 (by simpa using hl), hf⟩

theorem podNeedsUpdate_iff (pod : Pod) (tpl : PodTemplateSpec) :
    podNeedsUpdate pod tpl = true ↔ divergesAsIndexed pod tpl := by
  unfold podNeedsUpdate divergesAsIndexed
  rw [← imagesDiffer_iff]
  have hL := any_entries_iff tpl.Labels (fun k v => pod.Labels.index k != v)
  have hA := any_entries_iff tpl.Annotations (fun k v => pod.Annotations.index k != v)
  simp only [bne_iff_ne, ne_eq] at hL hA
  rw [← hL, ← hA]
  by_cases h1 : pod.Spec.Containers.length = tpl.Spec.Containers.length
  · by_cases h2 : imagesDiffer pod.Spec.Containers tpl.Spec.Containers = true
    · simp [h1, h2]
    · by_cases h3 : (tpl.Labels.entries.any fun e => pod.Labels.index e.1 != e.2) = true
      · simp [h1, h2, h3]
      · simp [h1, h2, h3]
  · simp [h1]

/-! ## Divergence and admission -/

/-- C6 at its failing input: the template carries the label `tier` with the
empty value, the instance carries no label at all and the same container.
The template key is missing from the instance, so the instance is divergent
in the claim's sense, yet `podNeedsUpdate` answers false. -/
theorem C6_missing_empty_label_not_reported :
    emptyValueTemplate.Labels.lookup "tier" = some "" ∧
    barePod.Labels.lookup "tier" = none ∧
    divergesAsWorded barePod emptyValueTemplate ∧
    podNeedsUpdate barePod emptyValueTemplate = false :=
  ⟨by decide, by decide,
    Or.inr (Or.inr (Or.inl ⟨"tier", "", by decide, by decide⟩)), by decide⟩

/-- What `podNeedsUpdate` computes, with the map indexing spelled out: it is
true exactly when the container counts differ, or an image differs at some
position, or some template label or annotation has a value other than the
one indexing reads on the instance, which is the empty string for a missing
key. -/
theorem podNeedsUpdate_iff_getD (pod : Pod) (tpl : PodTemplateSpec) :
    podNeedsUpdate pod tpl = true ↔
      (pod.Spec.Containers.length ≠ tpl.Spec.Containers.length ∨
        (∃ (i : Nat) (c d : Container), pod.Spec.Containers[i]? = some c ∧ tpl.Spec.Containers[i]? = some d ∧
          c.Image ≠ d.Image) ∨
        (∃ k v, tpl.Labels.lookup k = some v ∧ (pod.Labels.lookup k).getD "" ≠ v) ∨
        (∃ k v, tpl.Annotations.lookup k = some v ∧ (pod.Annotations.lookup k).getD "" ≠ v)) :=
  podNeedsUpdate_iff pod tpl

theorem index_union_of_not_mem (extra m : StrMap) (k : String) (h : k ∉ extra) :
    StrMap.index (extra ∪ m) k = StrMap.index m k := by
  unfold StrMap.index
  rw [AList.lookup_union_right h]

theorem mem_of_lookup_eq_some {m : StrMap} {k v : String} (h : m.lookup k = some v) : k ∈ m := by
  rw [← AList.lookup_isSome, h]
  rfl

/-- C7: labels and annotations gained by the instance under keys that do not
occur in the template leave the answer of `podNeedsUpdate` unchanged; so an
instance that is not divergent stays not divergent. -/
theorem C7_superset_tolerance (pod : Pod) (tpl : PodTemplateSpec)
    (extraLabels extraAnnotations : StrMap)
    (hL : ∀ k, k ∈ extraLabels → k ∉ tpl.Labels)
    (hA : ∀ k, k ∈ extraAnnotations → k ∉ tpl.Annotations) :
    podNeedsUpdate (withExtras pod extraLabels extraAnnotations) tpl = podNeedsUpdate pod tpl ∧
    (podNeedsUpdate pod tpl = false →
      podNeedsUpdate (withExtras pod extraLabels extraAnnotations) tpl = false) := by
  have key : podNeedsUpdate (withExtras pod extraLabels extraAnnotations) tpl
      = podNeedsUpdate pod tpl := by
    rw [Bool.eq_iff_iff, podNeedsUpdate_iff, podNeedsUpdate_iff]
    unfold divergesAsIndexed withExtras
    have e1 : ∀ k v, tpl.Labels.lookup k = some v →
        StrMap.index (extraLabels ∪ pod.Labels) k = StrMap.index pod.Labels k := by
      intro k v hk
      exact index_union_of_not_mem _ _ _ (fun hmem => hL k hmem (mem_of_lookup_eq_some hk))
    have e2 : ∀ k v, tpl.Annotations.lookup k = some v →
        StrMap.index (extraAnnotations ∪ pod.Annotations) k = StrMap.index pod.Annotations k := by
      intro k v hk
      exact index_union_of_not_mem _ _ _ (fun hmem => hA k hmem (mem_of_lookup_eq_some hk))
    have l1 : (∃ k v, tpl.Labels.lookup k = some v ∧
          StrMap.index (extraLabels ∪ pod.Labels) k ≠ v) ↔
        (∃ k v, tpl.Labels.lookup k = some v ∧ StrMap.index pod.Labels k ≠ v) := by
      constructor
      · rintro ⟨k, v, hk, hne⟩
        exact ⟨k, v, hk, by rwa [e1 k v hk] at hne⟩
      · rintro ⟨k, v, hk, hne⟩
        exact ⟨k, v, hk, by rwa [e1 k v hk]⟩
    have l2 : (∃ k v, tpl.Annotations.lookup k = some v ∧
          StrMap.index (extraAnnotations ∪ pod.Annotations) k ≠ v) ↔
        (∃ k v, tpl.Annotations.lookup k = some v ∧ StrMap.index pod.Annotations k ≠ v) := by
      constructor
      · rintro ⟨k, v, hk, hne⟩
        exact ⟨k, v, hk, by rwa [e2 k v hk] at hne⟩
      · rintro ⟨k, v, hk, hne⟩
        exact ⟨k, v, hk, by rwa [e2 k v hk]⟩
    simp only [l1, l2]
  exact ⟨key, fun h => by rw [key, h]⟩

/-- C7 at an instance that gains the label `zone=a` and the annotation
`note=x`, neither key being in the template. -/
theorem C7_superset_tolerance_witness :
    podNeedsUpdate (withExtras tierPod ((∅ : StrMap).insert "zone" "a")
        ((∅ : StrMap).insert "note" "x")) emptyValueTemplate
      = podNeedsUpdate tierPod emptyValueTemplate ∧
    (podNeedsUpdate tierPod emptyValueTemplate = false →
      podNeedsUpdate (withExtras tierPod ((∅ : StrMap).insert "zone" "a")
        ((∅ : StrMap).insert "note" "x")) emptyValueTemplate = false) :=
  C7_superset_tolerance tierPod emptyValueTemplate _ _
    (fun k hk hk2 => by
      have h1 : k = "zone" := ((AList.mem_insert _).1 hk).resolve_right (AList.not_mem_empty k)
      have h2 : k = "tier" := ((AList.mem_insert _).1 hk2).resolve_right (AList.not_mem_empty k)
      rw [h1] at h2
      exact absurd h2 (by decide))
    (fun k _ hk2 => AList.not_mem_empty k hk2)

/-- C10: on a MyStatefulSet object `ValidateCreate` fails, with the message
"replicas must be greater than or equal to 1", exactly when the replica count
is set and below 1; `ValidateUpdate` gives the same answer on the new object
whatever the old object is; a replica count of at least 1 is admitted by both. -/
theorem C10_admission_validation (m : MyStatefulSet) :
    ((ValidateCreate (.mystatefulset m)).2 = some (.Message replicasTooSmall) ↔
        ∃ r, m.Spec.Replicas = some r ∧ r < 1) ∧
    ((ValidateCreate (.mystatefulset m)).2 ≠ none ↔ ∃ r, m.Spec.Replicas = some r ∧ r < 1) ∧
    (∀ old, ValidateUpdate old (.mystatefulset m) = ValidateCreate (.mystatefulset m)) ∧
    (∀ r, m.Spec.Replicas = some r → 1 ≤ r →
      ValidateCreate (.mystatefulset m) = ([], none) ∧
      ∀ old, ValidateUpdate old (.mystatefulset m) = ([], none)) := by
  refine ⟨?_, ?_, fun old => rfl, ?_⟩
  · cases h : m.Spec.Replicas with
    | none => simp [ValidateCreate, h]
    | some r => by_cases hr : r < 1 <;> simp [ValidateCreate, h, hr]
  · cases h : m.Spec.Replicas with
    | none => simp [ValidateCreate, h]
    | some r => by_cases hr : r < 1 <;> simp [ValidateCreate, h, hr]
  · intro r hr h1
    have hlt : ¬ r < 1 := not_lt.mpr h1
    constructor
    · simp [ValidateCreate, hr, hlt]
    · intro old
      simp [ValidateUpdate, hr, hlt]

/-- C10 at an object with three replicas. -/
theorem C10_admission_validation_witness :
    ValidateCreate (.mystatefulset (webSet (some 3))) = ([], none) ∧
    ∀ old, ValidateUpdate old (.mystatefulset (webSet (some 3))) = ([], none) :=
  (C10_admission_validation (webSet (some 3))).2.2.2 3 rfl (by decide)

/-! ## The controller on the in-memory store -/

theorem any_of_subset {α : Type} {l₁ l₂ : List α} {f : α → Bool}
    (hsub : ∀ a ∈ l₁, a ∈ l₂) (h : l₁.any f = true) : l₂.any f = true := by
  rw [List.any_eq_true] at h ⊢
  obtain ⟨a, ha, hf⟩ := h
  exact ⟨a, hsub a ha, hf⟩

theorem createPVCsLoop_fake (req : Request) (m : MyStatefulSet) (i : Nat)
    (ts : List PersistentVolumeClaim) :
    ∀ (s : Store) (e : Option Error) (s' : Store),
      createPVCsLoop fakeClient req m i ts s = (e, s') →
      s'.pods = s.pods ∧ s'.objs = s.objs ∧ (∀ c ∈ s.pvcs, c ∈ s'.pvcs) ∧
      (e = none → ∀ t ∈ ts, s'.pvcs.any
        (PersistentVolumeClaim.hasKey req.Namespace (pvcName t.Name m.Name i)) = true) := by
  induction ts with
  | nil =>
    intro s e s' h
    simp only [createPVCsLoop, Prod.mk.injEq] at h
    obtain ⟨_, rfl⟩ := h
    simp
  | cons t ts ih =>
    intro s e s' h
    simp only [createPVCsLoop, fakeClient, Store.createPVC] at h
    by_cases hex : s.pvcs.any (PersistentVolumeClaim.hasKey (newPVC req m t i).Namespace
        (newPVC req m t i).Name) = true
    · simp only [hex, if_true, IsAlreadyExists, Bool.not_true, Bool.false_eq_true,
        if_false] at h
      obtain ⟨h1, h2, h3, h4⟩ := ih _ e s' h
      refine ⟨h1, h2, h3, fun he t' ht' => ?_⟩
      rcases List.mem_cons.1 ht' with rfl | hmem
      · exact any_of_subset h3 hex
      · exact h4 he t' hmem
    · simp only [hex, Bool.false_eq_true, if_false] at h
      obtain ⟨h1, h2, h3, h4⟩ := ih _ e s' h
      refine ⟨h1, h2, fun c hc => h3 c (List.mem_append_left _ hc), fun he t' ht' => ?_⟩
      rcases List.mem_cons.1 ht' with rfl | hmem
      · rw [List.any_eq_true]
        refine ⟨newPVC req m t' i, h3 _ (by simp), ?_⟩
        simp [PersistentVolumeClaim.hasKey, newPVC]
      · exact h4 he t' hmem

theorem createMissingLoop_fake (req : Request) (m : MyStatefulSet) (podList : List Pod)
    (l : List Nat) :
    ∀ (s s' : Store), createMissingLoop fakeClient req m podList l s = (none, s') →
      s'.pods = s.pods ++ (missingOrdinals m.Name podList l).map
          (fun i => newPod req m (podName m.Name i)) ∧
      s'.objs = s.objs ∧ (∀ c ∈ s.pvcs, c ∈ s'.pvcs) ∧
      (∀ i ∈ missingOrdinals m.Name podList l, ∀ t ∈ m.Spec.VolumeClaimTemplates,
        s'.pvcs.any (PersistentVolumeClaim.hasKey req.Namespace
          (pvcName t.Name m.Name i)) = true) := by
  induction l with
  | nil =>
    intro s s' h
    simp only [createMissingLoop, Prod.mk.injEq, true_and] at h
    subst h
    simp [missingOrdinals]
  | cons i l ih =>
    intro s s' h
    simp only [createMissingLoop] at h
    by_cases hex : podExists (podName m.Name i) podList = true
    · simp only [hex, Bool.not_true, Bool.false_eq_true, if_false] at h
      have hm : missingOrdinals m.Name podList (i :: l) = missingOrdinals m.Name podList l := by
        simp [missingOrdinals, hex]
      rw [hm]
      exact ih s s' h
    · have hm : missingOrdinals m.Name podList (i :: l)
          = i :: missingOrdinals m.Name podList l := by
        simp [missingOrdinals, hex]
      simp only [hex, Bool.not_false, if_true] at h
      rcases hP : createPVCs fakeClient s req m i with ⟨e1, s1⟩
      rw [hP] at h
      cases e1 with
      | some err => simp at h
      | none =>
        simp only [createPod, fakeClient, Store.createPod] at h
        obtain ⟨p1, p2, p3, p4⟩ := createPVCsLoop_fake req m i _ s none s1 hP
        by_cases hpe : s1.pods.any (Pod.hasKey (newPod req m (podName m.Name i)).Namespace
            (newPod req m (podName m.Name i)).Name) = true
        · simp [hpe] at h
        · simp only [hpe, Bool.false_eq_true, if_false] at h
          obtain ⟨q1, q2, q3, q4⟩ := ih _ s' h
          rw [hm]
          refine ⟨?_, ?_, fun c hc => q3 c (p3 c hc), ?_⟩
          · rw [q1]
            simp [p1]
          · rw [q2, p2]
          · intro j hj t ht
            rcases List.mem_cons.1 hj with rfl | hmem
            · exact any_of_subset q3 (p4 rfl t ht)
            · exact q4 j hmem t ht

theorem createMissingLoop_noop {σ : Type} (r : Client σ) (req : Request) (m : MyStatefulSet)
    (podList : List Pod) (l : List Nat) (s : σ)
    (h : ∀ i ∈ l, podExists (podName m.Name i) podList = true) :
    createMissingLoop r req m podList l s = (none, s) := by
  induction l with
  | nil => rfl
  | cons i l ih =>
    have hi := h i (List.mem_cons_self _ _)
    simp only [createMissingLoop, hi, Bool.not_true, Bool.false_eq_true, if_false]
    exact ih (fun j hj => h j (List.mem_cons_of_mem _ hj))

theorem updatePods_noop {σ : Type} (r : Client σ) (s : σ) (m : MyStatefulSet)
    (podList : List Pod) (req : Request)
    (h : ∀ p ∈ podList, podNeedsUpdate p m.Spec.Template = false) :
    updatePods r s m podList req = (none, s) := by
  induction podList with
  | nil => rfl
  | cons p rest ih =>
    have hp := h p (List.mem_cons_self _ _)
    simp only [updatePods, hp, Bool.false_eq_true, if_false]
    exact ih (fun q hq => h q (List.mem_cons_of_mem _ hq))

theorem updatePods_fake (m : MyStatefulSet) (req : Request) (podList : List Pod) :
    ∀ (s s' : Store), updatePods fakeClient s m podList req = (none, s') →
      ((∀ p ∈ podList, podNeedsUpdate p m.Spec.Template = false) ∧ s' = s) ∨
      (∃ pre p post, podList = pre ++ p :: post ∧
        (∀ q ∈ pre, podNeedsUpdate q m.Spec.Template = false) ∧
        podNeedsUpdate p m.Spec.Template = true ∧
        s.pods.any (Pod.hasKey p.Namespace p.Name) = true ∧
        s'.pods = s.pods.filter (fun q => !Pod.hasKey p.Namespace p.Name q)
                    ++ [newPod req m p.Name] ∧
        s'.pvcs = s.pvcs ∧ s'.objs = s.objs ∧
        s'.log = s.log ++ [.deletePod p.Namespace p.Name, .createPod req.Namespace p.Name]) := by
  induction podList with
  | nil =>
    intro s s' h
    simp only [updatePods, Prod.mk.injEq, true_and] at h
    exact Or.inl ⟨by simp, h.symm⟩
  | cons p rest ih =>
    intro s s' h
    by_cases hp : podNeedsUpdate p m.Spec.Template = true
    · right
      refine ⟨[], p, rest, rfl, by simp, hp, ?_⟩
      simp only [updatePods, hp, if_true, fakeClient, Store.deletePod, createPod,
        Store.createPod] at h
      by_cases hex : s.pods.any (Pod.hasKey p.Namespace p.Name) = true
      · simp only [hex, if_true] at h
        by_cases hex2 : (s.pods.filter (fun q => !Pod.hasKey p.Namespace p.Name q)).any
            (Pod.hasKey (newPod req m p.Name).Namespace (newPod req m p.Name).Name) = true
        · simp [hex2] at h
        · simp only [hex2, Bool.false_eq_true, if_false, Prod.mk.injEq, true_and] at h
          subst h
          simp [hex, newPod]
      · simp [hex] at h
    · simp only [Bool.not_eq_true] at hp
      simp only [updatePods, hp, Bool.false_eq_true, if_false] at h
      rcases ih s s' h with ⟨h1, h2⟩ | ⟨pre, q, post, h1, h2, h3, h4⟩
      · left
        refine ⟨fun x hx => ?_, h2⟩
        rcases List.mem_cons.1 hx with rfl | hmem
        · exact hp
        · exact h1 x hmem
      · right
        refine ⟨p :: pre, q, post, by simp [h1], fun x hx => ?_, h3, h4⟩
        rcases List.mem_cons.1 hx with rfl | hmem
        · exact hp
        · exact h2 x hmem

theorem filter_not_of_any_false {α : Type} (l : List α) (f : α → Bool) (h : l.any f = false) :
    l.filter (fun a => !f a) = l := by
  rw [List.filter_eq_self]
  intro a ha
  have := List.any_eq_false.1 h a ha
  simpa using this

theorem deletePVCsLoop_fake (m : MyStatefulSet) (n : String) (ts : List PersistentVolumeClaim) :
    ∀ (s : Store) (e : Option Error) (s' : Store),
      deletePVCsLoop fakeClient m n ts s = (e, s') →
      e = none ∧ s'.pods = s.pods ∧ s'.objs = s.objs ∧
      s'.pvcs = s.pvcs.filter (fun c => ts.all (fun t =>
        !PersistentVolumeClaim.hasKey m.Namespace (pvcNameOfPod t.Name n) c)) := by
  induction ts with
  | nil =>
    intro s e s' h
    simp only [deletePVCsLoop, Prod.mk.injEq] at h
    obtain ⟨rfl, rfl⟩ := h
    simp
  | cons t ts ih =>
    intro s e s' h
    simp only [deletePVCsLoop, fakeClient, Store.deletePVC, pvcToDelete] at h
    by_cases hex : s.pvcs.any (PersistentVolumeClaim.hasKey m.Namespace
        (pvcNameOfPod t.Name n)) = true
    · simp only [hex, if_true] at h
      obtain ⟨h1, h2, h3, h4⟩ := ih _ e s' h
      refine ⟨h1, h2, h3, ?_⟩
      rw [h4]
      simp only [List.filter_filter, List.all_cons]
      apply List.filter_congr
      intro c _
      rw [Bool.and_comm]
    · simp only [hex, Bool.false_eq_true, if_false, IsNotFound, Bool.not_true] at h
      obtain ⟨h1, h2, h3, h4⟩ := ih _ e s' h
      refine ⟨h1, h2, h3, ?_⟩
      rw [h4]
      simp only [Bool.not_eq_true] at hex
      conv_lhs => rw [← filter_not_of_any_false s.pvcs _ hex]
      simp only [List.filter_filter, List.all_cons]
      apply List.filter_congr
      intro c _
      rw [Bool.and_comm]

theorem cleanupLoop_fake (m : MyStatefulSet) (podList : List Pod) :
    ∀ (s s' : Store), cleanupLoop fakeClient m podList s = (none, s') →
      s'.pods = s.pods.filter (fun q => podList.all (fun p =>
        !Pod.hasKey p.Namespace p.Name q)) ∧
      s'.pvcs = s.pvcs.filter (fun c => podList.all (fun p =>
        m.Spec.VolumeClaimTemplates.all (fun t =>
          !PersistentVolumeClaim.hasKey m.Namespace (pvcNameOfPod t.Name p.Name) c))) ∧
      s'.objs = s.objs := by
  induction podList with
  | nil =>
    intro s s' h
    simp only [cleanupLoop, Prod.mk.injEq, true_and] at h
    subst h
    simp
  | cons p rest ih =>
    intro s s' h
    simp only [cleanupLoop] at h
    rcases hD : fakeClient.DeletePod s p with ⟨e1, s1⟩
    rw [hD] at h
    cases e1 with
    | some err => simp at h
    | none =>
      simp only at h
      rcases hP : deletePVCs fakeClient s1 m p.Name with ⟨e2, s2⟩
      rw [hP] at h
      cases e2 with
      | some err => simp at h
      | none =>
        simp only at h
        obtain ⟨_, p2, p3, p4⟩ := deletePVCsLoop_fake m p.Name _ s1 none s2 hP
        obtain ⟨q1, q2, q3⟩ := ih s2 s' h
        simp only [fakeClient, Store.deletePod] at hD
        by_cases hex : s.pods.any (Pod.hasKey p.Namespace p.Name) = true
        · simp only [hex, if_true, Prod.mk.injEq, true_and] at hD
          subst hD
          simp only at p2 p3 p4
          refine ⟨?_, ?_, ?_⟩
          · rw [q1, p2]
            simp only [List.filter_filter, List.all_cons]
            apply List.filter_congr
            intro c _
            rw [Bool.and_comm]
          · rw [q2, p4]
            simp only [List.filter_filter, List.all_cons]
            apply List.filter_congr
            intro c _
            rw [Bool.and_comm]
          · rw [q3, p3]
        · simp [hex] at hD

/-! ## Labels, listing and lookup -/

theorem lookup_foldl_insert (l : List (Σ _ : String, String)) :
    ∀ (_ : l.NodupKeys) (acc : StrMap) (k : String),
      (l.foldl (fun labels e => labels.insert e.1 e.2) acc).lookup k =
        match List.dlookup k l with
        | some v => some v
        | none => acc.lookup k := by
  induction l with
  | nil => intro _ acc k; simp
  | cons e l ih =>
    intro hl acc k
    obtain ⟨a, b⟩ := e
    rw [List.nodupKeys_cons] at hl
    simp only [List.foldl_cons]
    rw [ih hl.2]
    by_cases hk : k = a
    · subst hk
      have hnone : List.dlookup k l = none := List.dlookup_eq_none.2 hl.1
      simp [hnone, List.dlookup_cons_eq]
    · have hne : List.dlookup k (⟨a, b⟩ :: l) = List.dlookup k l :=
        List.dlookup_cons_ne l ⟨a, b⟩ hk
      rw [hne, AList.lookup_insert_ne hk]

theorem lookup_createLabels (oldMap : StrMap) (name k : String) :
    (createLabels oldMap name).lookup k =
      if k = ownerLabel then some name else oldMap.lookup k := by
  unfold createLabels
  by_cases hk : k = ownerLabel
  · subst hk
    simp
  · rw [AList.lookup_insert_ne hk, lookup_foldl_insert _ oldMap.nodupKeys, if_neg hk]
    have : AList.lookup k oldMap = List.dlookup k oldMap.entries := rfl
    rw [this]
    cases List.dlookup k oldMap.entries <;> simp

theorem matchesLabels_owner (name : String) (labels : StrMap) :
    matchesLabels ((∅ : StrMap).insert ownerLabel name) labels
      = (labels.lookup ownerLabel == some name) := by
  simp [matchesLabels, AList.insert_entries]

theorem fake_listPods (s : Store) (req : Request) (m : MyStatefulSet) :
    listPods fakeClient s req m = .ok (ownedPods s req.Namespace m.Name) := by
  simp only [listPods, fakeClient, Store.listPods, ownedPods, matchesLabels_owner]

theorem Store.get_ok {s : Store} {ns name : String} {m : MyStatefulSet}
    (h : Store.get s ns name = .ok m) : m.Namespace = ns ∧ m.Name = name := by
  unfold Store.get at h
  split at h
  · rename_i o ho
    have := List.find?_some ho
    simp only [Except.ok.injEq] at h
    subst h
    simpa using this
  · simp at h

/-- The instance `createPod` builds is owned and lives in the request's namespace. -/
theorem newPod_owned (req : Request) (m : MyStatefulSet) (n : String) :
    ((newPod req m n).Namespace == req.Namespace &&
      (newPod req m n).Labels.lookup ownerLabel == some m.Name) = true := by
  simp [newPod, lookup_createLabels]

/-- An instance built from the template is not divergent from it, unless the
template itself carries the owner label with another value. -/
theorem newPod_not_divergent (req : Request) (m : MyStatefulSet) (n : String)
    (h : ∀ v, m.Spec.Template.Labels.lookup ownerLabel = some v → v = m.Name) :
    podNeedsUpdate (newPod req m n) m.Spec.Template = false := by
  rw [← Bool.not_eq_true, podNeedsUpdate_iff]
  unfold divergesAsIndexed
  rintro (h1 | ⟨i, c, d, hc, hd, hne⟩ | ⟨k, v, hk, hne⟩ | ⟨k, v, hk, hne⟩)
  · exact h1 rfl
  · simp only [newPod] at hc
    rw [hc] at hd
    exact hne (by rw [Option.some.inj hd])
  · apply hne
    simp only [newPod, StrMap.index, lookup_createLabels]
    by_cases hko : k = ownerLabel
    · subst hko
      simp [h v hk]
    · simp [hko, hk]
  · apply hne
    simp [newPod, StrMap.index, hk]

/-! ## Reconcile on the in-memory store -/

theorem Reconcile_marked {σ : Type} (r : Client σ) (s : σ) (req : Request) (m : MyStatefulSet)
    (hget : r.Get s req.Namespace req.Name = .ok m) (hmark : markedForDeletion m = true) :
    Reconcile r s req = cleanupMyStatefulSet r s m req := by
  unfold markedForDeletion at hmark
  simp only [Reconcile, getMyStatefulSet, hget, hmark, if_true]

theorem Reconcile_steady (s s1 s2 : Store) (req : Request) (m : MyStatefulSet) (R : Int)
    (e2 : Option Error)
    (hget : fakeClient.Get s req.Namespace req.Name = .ok m)
    (hmark : markedForDeletion m = false) (hrep : m.Spec.Replicas = some R)
    (h1 : createMissingLoop fakeClient req m (ownedPods s req.Namespace m.Name)
      (List.range R.toNat) s = (none, s1))
    (h2 : updatePods fakeClient s1 m (ownedPods s req.Namespace m.Name) req = (e2, s2)) :
    Reconcile fakeClient s req = (({}, e2), s2) := by
  unfold markedForDeletion at hmark
  simp only [Reconcile, getMyStatefulSet, hget, hmark, Bool.false_eq_true, if_false, hrep,
    fake_listPods, createMissingPodsAndPVCs, h1, h2]
  cases e2 <;> rfl

theorem Reconcile_steady_fill_error (s s1 : Store) (req : Request) (m : MyStatefulSet) (R : Int)
    (err : Error)
    (hget : fakeClient.Get s req.Namespace req.Name = .ok m)
    (hmark : markedForDeletion m = false) (hrep : m.Spec.Replicas = some R)
    (h1 : createMissingLoop fakeClient req m (ownedPods s req.Namespace m.Name)
      (List.range R.toNat) s = (some err, s1)) :
    Reconcile fakeClient s req = (({}, some err), s1) := by
  unfold markedForDeletion at hmark
  simp only [Reconcile, getMyStatefulSet, hget, hmark, Bool.false_eq_true, if_false, hrep,
    fake_listPods, createMissingPodsAndPVCs, h1]

theorem cleanup_fake (s s1 : Store) (req : Request) (m : MyStatefulSet) (e : Option Error)
    (h : cleanupLoop fakeClient m (ownedPods s req.Namespace m.Name) s = (e, s1)) :
    cleanupMyStatefulSet fakeClient s m req = (({}, e), s1) := by
  simp only [cleanupMyStatefulSet, fake_listPods, h]
  cases e <;> rfl

theorem filter_newPods (req : Request) (m : MyStatefulSet) (l : List Nat) :
    (l.map (fun i => newPod req m (podName m.Name i))).filter
        (fun p => p.Namespace == req.Namespace && p.Labels.lookup ownerLabel == some m.Name)
      = l.map (fun i => newPod req m (podName m.Name i)) := by
  rw [List.filter_eq_self]
  intro p hp
  obtain ⟨i, _, rfl⟩ := List.mem_map.1 hp
  exact newPod_owned req m _

theorem missingOrdinals_nil (name : String) (l : List Nat) :
    missingOrdinals name [] l = l := by
  simp [missingOrdinals, podExists]

/-- C4, amended: when the object is not marked for deletion and its replica
count is unset, `Reconcile` returns the missing-replicas error and hands
back the client state it was given, whatever the client is. -/
theorem C4_missing_replicas {σ : Type} (r : Client σ) (s : σ) (req : Request)
    (m : MyStatefulSet) (hget : r.Get s req.Namespace req.Name = .ok m)
    (hdel : m.DeletionTimestamp = none) (hfin : m.Finalizers = none)
    (hrep : m.Spec.Replicas = none) :
    Reconcile r s req = (({}, some (.Message "配置缺少期望的副本数量")), s) := by
  simp [Reconcile, getMyStatefulSet, hget, hdel, hfin, hrep, missingReplicas]

/-- C4, as worded, fails: with the replica count unset but a finalizer
present, `Reconcile` runs the teardown, returns no error and deletes the
owned instance. -/
theorem C4_counterexample :
    (finalizedSet none).Spec.Replicas = none ∧
    (Reconcile fakeClient (storeOf (finalizedSet none) [webPod "web-0" "nginx:latest"])
      webReq).1.2 = none ∧
    (Reconcile fakeClient (storeOf (finalizedSet none) [webPod "web-0" "nginx:latest"])
      webReq).2.log = [Call.deletePod "default" "web-0"] ∧
    (Reconcile fakeClient (storeOf (finalizedSet none) [webPod "web-0" "nginx:latest"])
      webReq).2.pods.length = 0 := by
  decide

/-- C4 at the object `web` with no replica count and no deletion mark. -/
theorem C4_missing_replicas_witness :
    Reconcile fakeClient (storeOf (webSet none) []) webReq
      = (({}, some (.Message "配置缺少期望的副本数量")), storeOf (webSet none) []) :=
  C4_missing_replicas fakeClient (storeOf (webSet none) []) webReq (webSet none) rfl rfl rfl rfl

/-- What a successful steady-state pass that starts without owned instances
leaves behind: the instances of all ordinals, in order, after the old pods. -/
theorem steady_from_empty (s s' : Store) (req : Request) (m : MyStatefulSet) (R : Int)
    (res : Result)
    (hget : fakeClient.Get s req.Namespace req.Name = .ok m)
    (hmark : markedForDeletion m = false) (hrep : m.Spec.Replicas = some R)
    (hempty : ownedPods s req.Namespace m.Name = [])
    (hrun : Reconcile fakeClient s req = ((res, none), s')) :
    createMissingLoop fakeClient req m [] (List.range R.toNat) s = (none, s') ∧
    s'.pods = s.pods ++ (List.range R.toNat).map (fun i => newPod req m (podName m.Name i)) ∧
    s'.objs = s.objs ∧
    ownedPods s' req.Namespace m.Name
      = (List.range R.toNat).map (fun i => newPod req m (podName m.Name i)) := by
  rcases h1 : createMissingLoop fakeClient req m (ownedPods s req.Namespace m.Name)
    (List.range R.toNat) s with ⟨e1, s1⟩
  cases e1 with
  | some err =>
    rw [Reconcile_steady_fill_error s s1 req m R err hget hmark hrep h1] at hrun
    simp at hrun
  | none =>
    have h2 : updatePods fakeClient s1 m (ownedPods s req.Namespace m.Name) req = (none, s1) := by
      rw [hempty]
      rfl
    rw [Reconcile_steady s s1 s1 req m R none hget hmark hrep h1 h2] at hrun
    simp only [Prod.mk.injEq, and_true, true_and] at hrun
    obtain ⟨_, rfl⟩ := hrun
    rw [hempty] at h1
    obtain ⟨p1, p2, _, _⟩ := createMissingLoop_fake req m [] _ s s1 h1
    rw [missingOrdinals_nil] at p1
    refine ⟨h1, p1, p2, ?_⟩
    have hs1 : ownedPods s1 req.Namespace m.Name = ownedPods s req.Namespace m.Name ++
        ((List.range R.toNat).map (fun i => newPod req m (podName m.Name i))).filter
          (fun p => p.Namespace == req.Namespace && p.Labels.lookup ownerLabel == some m.Name) := by
      simp only [ownedPods, p1, List.filter_append]
    rw [hs1, hempty, filter_newPods, List.nil_append]

/-- C1, amended: for an object that is not marked for deletion, has replica
count R ≥ 1 and no owned instance in the store, a successful `Reconcile` pass
leaves exactly R owned instances, named owner-0 … owner-(R-1), and for each
ordinal and each claim template a storage claim named template-owner-ordinal. -/
theorem C1_convergence (s s' : Store) (req : Request) (m : MyStatefulSet) (R : Int)
    (res : Result)
    (hget : fakeClient.Get s req.Namespace req.Name = .ok m)
    (hdel : m.DeletionTimestamp = none) (hfin : m.Finalizers = none)
    (hrep : m.Spec.Replicas = some R) (hR : 1 ≤ R)
    (hempty : ownedPods s req.Namespace m.Name = [])
    (hrun : Reconcile fakeClient s req = ((res, none), s')) :
    ((ownedPods s' req.Namespace m.Name).length : Int) = R ∧
    (ownedPods s' req.Namespace m.Name).map Pod.Name
      = (List.range R.toNat).map (podName m.Name) ∧
    ∀ i, i < R.toNat → ∀ t ∈ m.Spec.VolumeClaimTemplates,
      ∃ c ∈ s'.pvcs, c.Namespace = req.Namespace ∧ c.Name = pvcName t.Name m.Name i := by
  have hmark : markedForDeletion m = false := by simp [markedForDeletion, hdel, hfin]
  obtain ⟨h1, _, _, h4⟩ := steady_from_empty s s' req m R res hget hmark hrep hempty hrun
  refine ⟨?_, ?_, ?_⟩
  · rw [h4]
    simp only [List.length_map, List.length_range]
    exact Int.toNat_of_nonneg (by omega)
  · rw [h4, List.map_map]
    rfl
  · intro i hi t ht
    obtain ⟨_, _, _, q4⟩ := createMissingLoop_fake req m [] _ s s' h1
    have hmem : i ∈ missingOrdinals m.Name [] (List.range R.toNat) := by
      rw [missingOrdinals_nil]
      exact List.mem_range.2 hi
    have := q4 i hmem t ht
    rw [List.any_eq_true] at this
    obtain ⟨c, hc, hk⟩ := this
    refine ⟨c, hc, ?_⟩
    simpa [PersistentVolumeClaim.hasKey] using hk

/-- C1, as worded, fails: for an object with one replica that carries a
finalizer, `Reconcile` succeeds through the teardown and leaves no instance. -/
theorem C1_counterexample :
    fakeClient.Get (storeOf (finalizedSet (some 1)) []) "default" "web"
      = .ok (finalizedSet (some 1)) ∧
    (finalizedSet (some 1)).Spec.Replicas = some 1 ∧
    ownedPods (storeOf (finalizedSet (some 1)) []) "default" "web" = [] ∧
    (Reconcile fakeClient (storeOf (finalizedSet (some 1)) []) webReq).1.2 = none ∧
    (ownedPods (Reconcile fakeClient (storeOf (finalizedSet (some 1)) []) webReq).2
      "default" "web").length = 0 :=
  ⟨rfl, rfl, rfl, by decide, by decide⟩

/-- C1 at the object `web` with two replicas and one claim template, on a
store without instances. -/
theorem C1_convergence_witness :
    ((ownedPods (Reconcile fakeClient (storeOf webSetWithClaim []) webReq).2
      "default" "web").length : Int) = 2 ∧
    (ownedPods (Reconcile fakeClient (storeOf webSetWithClaim []) webReq).2
      "default" "web").map Pod.Name = (List.range 2).map (podName "web") ∧
    ∀ i, i < 2 → ∀ t ∈ [dataClaim],
      ∃ c ∈ (Reconcile fakeClient (storeOf webSetWithClaim []) webReq).2.pvcs,
        c.Namespace = "default" ∧ c.Name = pvcName t.Name "web" i :=
  C1_convergence (storeOf webSetWithClaim []) _ webReq webSetWithClaim 2 {}
    rfl rfl rfl rfl (by decide) rfl rfl

theorem Store.get_congr {s s' : Store} (h : s'.objs = s.objs) (ns name : String) :
    Store.get s' ns name = Store.get s ns name := by
  simp only [Store.get, h]

theorem podExists_newPods (req : Request) (m : MyStatefulSet) (l : List Nat) (i : Nat)
    (hi : i ∈ l) :
    podExists (podName m.Name i) (l.map (fun j => newPod req m (podName m.Name j))) = true := by
  simp only [podExists, List.any_eq_true]
  exact ⟨newPod req m (podName m.Name i), List.mem_map.2 ⟨i, hi, rfl⟩, by simp [newPod]⟩

/-- Away from the label clash the fill is idempotent: when the template does
not itself carry the owner label `mystatefulset-name` with a value other
than the owner's name, a `Reconcile` pass that succeeds from a store without
owned instances is followed by a second pass that succeeds and hands back
the store unchanged, call log included. -/
theorem second_pass_noop_without_clash (s s' : Store) (req : Request) (m : MyStatefulSet)
    (res : Result)
    (hget : fakeClient.Get s req.Namespace req.Name = .ok m)
    (hlabel : ∀ v, m.Spec.Template.Labels.lookup ownerLabel = some v → v = m.Name)
    (hempty : ownedPods s req.Namespace m.Name = [])
    (hrun : Reconcile fakeClient s req = ((res, none), s')) :
    Reconcile fakeClient s' req = (({}, none), s') := by
  by_cases hmark : markedForDeletion m = true
  · have hc : cleanupLoop fakeClient m (ownedPods s req.Namespace m.Name) s = (none, s) := by
      rw [hempty]
      rfl
    have hfirst := Reconcile_marked fakeClient s req m hget hmark
    rw [cleanup_fake s s req m none hc] at hfirst
    rw [hfirst] at hrun
    simp only [Prod.mk.injEq, and_true, true_and] at hrun
    obtain ⟨_, rfl⟩ := hrun
    exact hfirst
  · simp only [Bool.not_eq_true] at hmark
    cases hrep : m.Spec.Replicas with
    | none =>
      unfold markedForDeletion at hmark
      simp [Reconcile, getMyStatefulSet, hget, hmark, hrep] at hrun
    | some R =>
      obtain ⟨_, _, h3, h4⟩ := steady_from_empty s s' req m R res hget hmark hrep hempty hrun
      have hget' : fakeClient.Get s' req.Namespace req.Name = .ok m := by
        have : fakeClient.Get s' req.Namespace req.Name
            = fakeClient.Get s req.Namespace req.Name := Store.get_congr h3 _ _
        rw [this, hget]
      have h1 : createMissingLoop fakeClient req m (ownedPods s' req.Namespace m.Name)
          (List.range R.toNat) s' = (none, s') := by
        apply createMissingLoop_noop
        intro i hi
        rw [h4]
        exact podExists_newPods req m _ i hi
      have h2 : updatePods fakeClient s' m (ownedPods s' req.Namespace m.Name) req
          = (none, s') := by
        apply updatePods_noop
        intro p hp
        rw [h4] at hp
        obtain ⟨i, _, rfl⟩ := List.mem_map.1 hp
        exact newPod_not_divergent req m _ hlabel
      exact Reconcile_steady s' s' s' req m R none hget' hmark hrep h1 h2

/-- C5 at its failing input: the object `web` has one replica and the
template label `mystatefulset-name=other`, the store holds no instance. The
first pass creates `web-0`; the second pass, on the unchanged object,
deletes `web-0` and creates it again. -/
theorem C5_second_pass_replaces_fresh_instance :
    ownedPods (storeOf clashingSet []) "default" "web" = [] ∧
    (Reconcile fakeClient (storeOf clashingSet []) webReq).1.2 = none ∧
    (Reconcile fakeClient (storeOf clashingSet []) webReq).2.log
      = [Call.createPod "default" "web-0"] ∧
    (Reconcile fakeClient (Reconcile fakeClient (storeOf clashingSet []) webReq).2
      webReq).1.2 = none ∧
    (Reconcile fakeClient (Reconcile fakeClient (storeOf clashingSet []) webReq).2 webReq).2.log
      = [Call.createPod "default" "web-0", Call.deletePod "default" "web-0",
         Call.createPod "default" "web-0"] :=
  ⟨rfl, by decide, by decide, by decide, by decide⟩

/-- The second pass at the object `web` with two replicas and one claim
template changes nothing. -/
theorem second_pass_noop_at_web :
    Reconcile fakeClient (Reconcile fakeClient (storeOf webSetWithClaim []) webReq).2 webReq
      = (({}, none), (Reconcile fakeClient (storeOf webSetWithClaim []) webReq).2) :=
  second_pass_noop_without_clash (storeOf webSetWithClaim []) _ webReq webSetWithClaim {} rfl
    (fun v hv => by
      have hnone : webSetWithClaim.Spec.Template.Labels.lookup ownerLabel = none := by decide
      rw [hnone] at hv
      exact Option.noConfusion hv)
    rfl rfl

/-- C2: a successful `updatePods` pass over any list of instances either
finds a divergent instance, and then issues exactly one delete and one
create, for the first divergent instance in listing order, leaving every
stored instance with another key as it was; or finds none, and then leaves
the store, call log included, unchanged. -/
theorem C2_single_step_update (s s' : Store) (m : MyStatefulSet) (podList : List Pod)
    (req : Request) (hrun : updatePods fakeClient s m podList req = (none, s')) :
    ((∃ p ∈ podList, podNeedsUpdate p m.Spec.Template = true) →
      ∃ pre p post, podList = pre ++ p :: post ∧
        (∀ q ∈ pre, podNeedsUpdate q m.Spec.Template = false) ∧
        podNeedsUpdate p m.Spec.Template = true ∧
        s'.log = s.log ++ [.deletePod p.Namespace p.Name, .createPod req.Namespace p.Name] ∧
        s'.pods = s.pods.filter (fun q => !Pod.hasKey p.Namespace p.Name q)
                    ++ [newPod req m p.Name] ∧
        s'.pvcs = s.pvcs ∧ s'.objs = s.objs) ∧
    ((∀ p ∈ podList, podNeedsUpdate p m.Spec.Template = false) → s' = s) := by
  rcases updatePods_fake m req podList s s' hrun with
    ⟨h1, h2⟩ | ⟨pre, p, post, h1, h2, h3, _, h5, h6, h7, h8⟩
  · refine ⟨?_, fun _ => h2⟩
    rintro ⟨p, hp, hneed⟩
    rw [h1 p hp] at hneed
    exact Bool.noConfusion hneed
  · refine ⟨fun _ => ⟨pre, p, post, h1, h2, h3, h8, h5, h6, h7⟩, fun hall => ?_⟩
    have hp : p ∈ podList := by
      rw [h1]
      exact List.mem_append_right _ (List.mem_cons_self _ _)
    rw [hall p hp] at h3
    exact Bool.noConfusion h3

/-- C2 on three instances of which the second and the third diverge: only
`web-1` is deleted and recreated. -/
theorem C2_single_step_update_witness :
    (updatePods fakeClient (storeOf webSet3 mixedPods) webSet3 mixedPods webReq).1 = none ∧
    (updatePods fakeClient (storeOf webSet3 mixedPods) webSet3 mixedPods webReq).2.log
      = [Call.deletePod "default" "web-1", Call.createPod "default" "web-1"] ∧
    ((∃ p ∈ mixedPods, podNeedsUpdate p webSet3.Spec.Template = true) →
      ∃ pre p post, mixedPods = pre ++ p :: post ∧
        (∀ q ∈ pre, podNeedsUpdate q webSet3.Spec.Template = false) ∧
        podNeedsUpdate p webSet3.Spec.Template = true ∧
        (updatePods fakeClient (storeOf webSet3 mixedPods) webSet3 mixedPods webReq).2.log
          = (storeOf webSet3 mixedPods).log ++
            [.deletePod p.Namespace p.Name, .createPod webReq.Namespace p.Name] ∧
        (updatePods fakeClient (storeOf webSet3 mixedPods) webSet3 mixedPods webReq).2.pods
          = (storeOf webSet3 mixedPods).pods.filter (fun q => !Pod.hasKey p.Namespace p.Name q)
              ++ [newPod webReq webSet3 p.Name] ∧
        (updatePods fakeClient (storeOf webSet3 mixedPods) webSet3 mixedPods webReq).2.pvcs
          = (storeOf webSet3 mixedPods).pvcs ∧
        (updatePods fakeClient (storeOf webSet3 mixedPods) webSet3 mixedPods webReq).2.objs
          = (storeOf webSet3 mixedPods).objs) :=
  ⟨by decide, by decide,
    (C2_single_step_update (storeOf webSet3 mixedPods) _ webSet3 mixedPods webReq rfl).1⟩

/-- C3, amended: for an object marked for deletion, a successful `Reconcile`
pass leaves no instance carrying the owner label in the request's namespace,
and removes exactly the claims named template-instance for a claim template
of the object and an instance owned before the pass; every other claim,
whatever its labels, stays in the store. -/
theorem C3_teardown (s s' : Store) (req : Request) (m : MyStatefulSet) (res : Result)
    (hget : fakeClient.Get s req.Namespace req.Name = .ok m)
    (hmark : m.DeletionTimestamp ≠ none ∨ m.Finalizers ≠ none)
    (hrun : Reconcile fakeClient s req = ((res, none), s')) :
    ownedPods s' req.Namespace m.Name = [] ∧
    s'.pvcs = s.pvcs.filter (fun c => (ownedPods s req.Namespace m.Name).all (fun p =>
      m.Spec.VolumeClaimTemplates.all (fun t =>
        !PersistentVolumeClaim.hasKey m.Namespace (pvcNameOfPod t.Name p.Name) c))) ∧
    (∀ p ∈ ownedPods s req.Namespace m.Name, ∀ t ∈ m.Spec.VolumeClaimTemplates,
      ∀ c ∈ s'.pvcs, ¬ (c.Namespace = m.Namespace ∧ c.Name = pvcNameOfPod t.Name p.Name)) := by
  have hm : markedForDeletion m = true := by
    unfold markedForDeletion
    rcases hmark with h | h
    · cases hd : m.DeletionTimestamp with
      | none => exact absurd hd h
      | some _ => rfl
    · cases hf : m.Finalizers with
      | none => exact absurd hf h
      | some _ => simp
  rw [Reconcile_marked fakeClient s req m hget hm] at hrun
  rcases hc : cleanupLoop fakeClient m (ownedPods s req.Namespace m.Name) s with ⟨e, s1⟩
  rw [cleanup_fake s s1 req m e hc] at hrun
  simp only [Prod.mk.injEq] at hrun
  obtain ⟨⟨_, rfl⟩, rfl⟩ := hrun
  obtain ⟨q1, q2, _⟩ := cleanupLoop_fake m _ s s1 hc
  refine ⟨?_, q2, ?_⟩
  · rw [List.eq_nil_iff_forall_not_mem]
    intro q hq
    simp only [ownedPods, q1, List.mem_filter] at hq
    obtain ⟨⟨hmem, hall⟩, howned⟩ := hq
    have hq' : q ∈ ownedPods s req.Namespace m.Name := by
      simp only [ownedPods, List.mem_filter]
      exact ⟨hmem, howned⟩
    have := List.all_eq_true.1 hall q hq'
    simp [Pod.hasKey] at this
  · intro p hp t ht c hc' hkey
    rw [q2, List.mem_filter] at hc'
    have h1 := List.all_eq_true.1 hc'.2 p hp
    have h2 := List.all_eq_true.1 h1 t ht
    simp [PersistentVolumeClaim.hasKey, hkey.1, hkey.2] at h2

/-- C3, as worded, fails: with no owned instance left and the owned claim
`data-web-0` still stored, the teardown succeeds and leaves the claim. -/
theorem C3_counterexample :
    (ownedPods { storeOf finalizedSetWithClaim [] with pvcs := [orphanClaim] }
      "default" "web").length = 0 ∧
    (Reconcile fakeClient { storeOf finalizedSetWithClaim [] with pvcs := [orphanClaim] }
      webReq).1.2 = none ∧
    (ownedPVCs (Reconcile fakeClient
      { storeOf finalizedSetWithClaim [] with pvcs := [orphanClaim] } webReq).2
      "default" "web").map PersistentVolumeClaim.Name = ["data-web-0"] := by
  decide

/-- C3 on a store with two owned instances and their two claims. -/
theorem C3_teardown_witness :
    ownedPods (Reconcile fakeClient filledStore webReq).2 "default" "web" = [] ∧
    (Reconcile fakeClient filledStore webReq).2.pvcs.length = 0 :=
  ⟨(C3_teardown filledStore _ webReq finalizedSetWithClaim {} rfl
      (Or.inr (by decide)) rfl).1, by decide⟩

theorem mem_ownedPods {s : Store} {ns owner : String} {q : Pod} :
    q ∈ ownedPods s ns owner ↔
      q ∈ s.pods ∧ (q.Namespace == ns && q.Labels.lookup ownerLabel == some owner) = true := by
  simp only [ownedPods, List.mem_filter]

/-- Names owned after a successful steady-state pass: those owned before,
and those of the ordinals below the replica count. -/
theorem steady_names (s s' : Store) (req : Request) (m : MyStatefulSet) (R : Int)
    (res : Result)
    (hget : fakeClient.Get s req.Namespace req.Name = .ok m)
    (hmark : markedForDeletion m = false) (hrep : m.Spec.Replicas = some R)
    (hrun : Reconcile fakeClient s req = ((res, none), s')) (n : String) :
    (∃ q ∈ ownedPods s' req.Namespace m.Name, q.Name = n) ↔
      ((∃ q ∈ ownedPods s req.Namespace m.Name, q.Name = n) ∨
        ∃ i, i < R.toNat ∧ n = podName m.Name i) := by
  rcases h1 : createMissingLoop fakeClient req m (ownedPods s req.Namespace m.Name)
    (List.range R.toNat) s with ⟨e1, s1⟩
  cases e1 with
  | some err =>
    rw [Reconcile_steady_fill_error s s1 req m R err hget hmark hrep h1] at hrun
    simp at hrun
  | none =>
    rcases h2 : updatePods fakeClient s1 m (ownedPods s req.Namespace m.Name) req with ⟨e2, s2⟩
    rw [Reconcile_steady s s1 s2 req m R e2 hget hmark hrep h1 h2] at hrun
    simp only [Prod.mk.injEq] at hrun
    obtain ⟨⟨_, rfl⟩, rfl⟩ := hrun
    obtain ⟨p1, _, _, _⟩ := createMissingLoop_fake req m _ _ s s1 h1
    have hs1 : ownedPods s1 req.Namespace m.Name = ownedPods s req.Namespace m.Name ++
        (missingOrdinals m.Name (ownedPods s req.Namespace m.Name) (List.range R.toNat)).map
          (fun i => newPod req m (podName m.Name i)) := by
      have := filter_newPods req m
        (missingOrdinals m.Name (ownedPods s req.Namespace m.Name) (List.range R.toNat))
      simp only [ownedPods, p1, List.filter_append] at this ⊢
      rw [this]
    -- every ordinal below the replica count has an owned instance after the fill
    have hfill : ∀ i, i < R.toNat →
        ∃ q ∈ ownedPods s1 req.Namespace m.Name, q.Name = podName m.Name i := by
      intro i hi
      rw [hs1]
      by_cases hex : podExists (podName m.Name i) (ownedPods s req.Namespace m.Name) = true
      · simp only [podExists, List.any_eq_true, beq_iff_eq] at hex
        obtain ⟨q, hq, hn⟩ := hex
        exact ⟨q, List.mem_append_left _ hq, hn⟩
      · refine ⟨newPod req m (podName m.Name i), List.mem_append_right _ ?_, rfl⟩
        refine List.mem_map.2 ⟨i, ?_, rfl⟩
        simp only [missingOrdinals, List.mem_filter, List.mem_range]
        exact ⟨hi, by simpa using hex⟩
    -- the fill adds no other names
    have hsrc : ∀ q ∈ ownedPods s1 req.Namespace m.Name,
        (∃ q0 ∈ ownedPods s req.Namespace m.Name, q0.Name = q.Name) ∨
          ∃ i, i < R.toNat ∧ q.Name = podName m.Name i := by
      intro q hq
      rw [hs1] at hq
      rcases List.mem_append.1 hq with hq | hq
      · exact Or.inl ⟨q, hq, rfl⟩
      · obtain ⟨i, hi, rfl⟩ := List.mem_map.1 hq
        simp only [missingOrdinals, List.mem_filter, List.mem_range] at hi
        exact Or.inr ⟨i, hi.1, rfl⟩
    -- the update keeps the set of owned names
    have hupd : ∀ x, (∃ q ∈ ownedPods s2 req.Namespace m.Name, q.Name = x) ↔
        (∃ q ∈ ownedPods s1 req.Namespace m.Name, q.Name = x) := by
      intro x
      rcases updatePods_fake m req _ s1 s2 h2 with
        ⟨_, rfl⟩ | ⟨pre, p, post, hsplit, _, _, _, hpods, _, _, _⟩
      · exact Iff.rfl
      · have hp : p ∈ ownedPods s req.Namespace m.Name := by
          rw [hsplit]
          exact List.mem_append_right _ (List.mem_cons_self _ _)
        have hp1 : p ∈ ownedPods s1 req.Namespace m.Name := by
          rw [hs1]
          exact List.mem_append_left _ hp
        have hnew : newPod req m p.Name ∈ ownedPods s2 req.Namespace m.Name := by
          rw [mem_ownedPods, hpods]
          exact ⟨List.mem_append_right _ (List.mem_singleton_self _), newPod_owned req m _⟩
        constructor
        · rintro ⟨q, hq, rfl⟩
          rw [mem_ownedPods, hpods] at hq
          rcases List.mem_append.1 hq.1 with hmem | hmem
          · exact ⟨q, mem_ownedPods.2 ⟨(List.mem_filter.1 hmem).1, hq.2⟩, rfl⟩
          · rw [List.mem_singleton] at hmem
            subst hmem
            exact ⟨p, hp1, rfl⟩
        · rintro ⟨q, hq, rfl⟩
          by_cases hkey : Pod.hasKey p.Namespace p.Name q = true
          · refine ⟨newPod req m p.Name, hnew, ?_⟩
            simp only [Pod.hasKey, Bool.and_eq_true, beq_iff_eq] at hkey
            exact hkey.2.symm
          · rw [mem_ownedPods] at hq
            refine ⟨q, mem_ownedPods.2 ⟨?_, hq.2⟩, rfl⟩
            rw [hpods]
            refine List.mem_append_left _ (List.mem_filter.2 ⟨hq.1, ?_⟩)
            simpa using hkey
    rw [hupd]
    constructor
    · rintro ⟨q, hq, rfl⟩
      exact hsrc q hq
    · rintro (⟨q, hq, rfl⟩ | ⟨i, hi, rfl⟩)
      · exact ⟨q, by rw [hs1]; exact List.mem_append_left _ hq, rfl⟩
      · exact hfill i hi

/-- C9, amended: after a successful steady-state `Reconcile` pass with
replica count R, the names of the owned instances are exactly the names
owned before the pass together with owner-i for the ordinals i in [0, R):
every ordinal below R has its instance, and an instance owned before under
any other name is kept, since no path removes surplus instances. -/
theorem C9_identity_range (s s' : Store) (req : Request) (m : MyStatefulSet) (R : Int)
    (res : Result)
    (hget : fakeClient.Get s req.Namespace req.Name = .ok m)
    (hdel : m.DeletionTimestamp = none) (hfin : m.Finalizers = none)
    (hrep : m.Spec.Replicas = some R)
    (hrun : Reconcile fakeClient s req = ((res, none), s')) :
    (∀ i, i < R.toNat → ∃ q ∈ ownedPods s' req.Namespace m.Name, q.Name = podName m.Name i) ∧
    (∀ n, (∃ q ∈ ownedPods s' req.Namespace m.Name, q.Name = n) ↔
      ((∃ q ∈ ownedPods s req.Namespace m.Name, q.Name = n) ∨
        ∃ i, i < R.toNat ∧ n = podName m.Name i)) := by
  have hmark : markedForDeletion m = false := by simp [markedForDeletion, hdel, hfin]
  have key := steady_names s s' req m R res hget hmark hrep hrun
  exact ⟨fun i hi => (key _).2 (Or.inr ⟨i, hi, rfl⟩), key⟩

/-- C9, as worded, fails: with one replica wanted and the owned instance
`web-7` in the store, a successful pass leaves `web-7` next to `web-0`. -/
theorem C9_counterexample :
    (Reconcile fakeClient (storeOf (webSet (some 1)) [webPod "web-7" "nginx:latest"])
      webReq).1.2 = none ∧
    (ownedPods (Reconcile fakeClient
      (storeOf (webSet (some 1)) [webPod "web-7" "nginx:latest"]) webReq).2
      "default" "web").map Pod.Name = ["web-7", "web-0"] := by
  decide

/-- C9 on a store that holds `web-7` while one replica is wanted. -/
theorem C9_identity_range_witness :
    ∃ q ∈ ownedPods (Reconcile fakeClient
        (storeOf (webSet (some 1)) [webPod "web-7" "nginx:latest"]) webReq).2 "default" "web",
      q.Name = podName "web" 0 :=
  (C9_identity_range (storeOf (webSet (some 1)) [webPod "web-7" "nginx:latest"]) _ webReq
    (webSet (some 1)) 1 {} rfl rfl rfl rfl rfl).1 0 (by decide)

/-- Whatever the client, a not-found answer to the deletion of an instance
ends the update scan and the teardown loop with that error, while the same
answer to the deletion of a claim lets the claim loop go on. -/
theorem delete_not_found {σ : Type} (r : Client σ) (s s1 : σ) (m : MyStatefulSet) (pod : Pod)
    (rest : List Pod) (req : Request) (hnf : r.DeletePod s pod = (some .NotFound, s1)) :
    (podNeedsUpdate pod m.Spec.Template = true →
      updatePods r s m (pod :: rest) req = (some .NotFound, s1)) ∧
    cleanupLoop r m (pod :: rest) s = (some .NotFound, s1) ∧
    (∀ (t : PersistentVolumeClaim) (ts : List PersistentVolumeClaim) (n : String) (s2 : σ),
      r.DeletePVC s (pvcToDelete m t n) = (some .NotFound, s2) →
      deletePVCsLoop r m n (t :: ts) s = deletePVCsLoop r m n ts s2) := by
  refine ⟨fun hneed => ?_, ?_, fun t ts n s2 h => ?_⟩
  · simp only [updatePods, hneed, if_true, hnf]
  · simp only [cleanupLoop, hnf]
  · simp only [deletePVCsLoop, h, IsNotFound, Bool.not_true, Bool.false_eq_true, if_false]

/-- C8 at its failing inputs. The list answered to the controller still
holds `web-0` while the store no longer does. In the teardown path and in
the update path the pass returns the not-found error of the instance
deletion; only the not-found answer to a claim deletion is passed over. -/
theorem C8_not_found_on_instance_delete :
    (Reconcile (staleClient [webPod "web-0" "nginx:latest"])
      (storeOf (finalizedSet (some 1)) []) webReq).1.2 = some Error.NotFound ∧
    (Reconcile (staleClient [webPod "web-0" "nginx:1.19"])
      (storeOf (webSet (some 1)) []) webReq).1.2 = some Error.NotFound ∧
    (Reconcile fakeClient (storeOf finalizedSetWithClaim [webPod "web-0" "nginx:latest"])
      webReq).1.2 = none ∧
    (Reconcile fakeClient (storeOf finalizedSetWithClaim [webPod "web-0" "nginx:latest"])
      webReq).2.log = [Call.deletePod "default" "web-0", Call.deletePVC "default" "data-web-0"] := by
  decide

/-! ## Defaulting and the not-found branch -/

/-- C11: on a MyStatefulSet object `Default` succeeds; afterwards the replica
count is set, to 1 when it was unset and to its previous value otherwise;
no other field changes; and defaulting the result again changes nothing. -/
theorem C11_admission_defaulting (m : MyStatefulSet) :
    ∃ m', Default (.mystatefulset m) = (none, .mystatefulset m') ∧
      m'.Spec.Replicas = some (m.Spec.Replicas.getD 1) ∧
      m' = { m with Spec := { m.Spec with Replicas := some (m.Spec.Replicas.getD 1) } } ∧
      Default (.mystatefulset m') = (none, .mystatefulset m') := by
  obtain ⟨name, ns, dt, fin, ⟨rep, tpl, vcts, svc⟩⟩ := m
  cases rep with
  | none => exact ⟨_, rfl, rfl, rfl, rfl⟩
  | some r => exact ⟨_, rfl, rfl, rfl, rfl⟩

theorem Store.get_not_found (s : Store) (ns name : String)
    (h : ∀ o ∈ s.objs, ¬ (o.Namespace = ns ∧ o.Name = name)) :
    Store.get s ns name = .error .NotFound := by
  unfold Store.get
  have hnone : s.objs.find? (fun o => o.Namespace == ns && o.Name == name) = none := by
    rw [List.find?_eq_none]
    intro o ho
    have := h o ho
    simpa using this
  rw [hnone]

/-- C12: when the fetch of the desired-state object answers not-found,
`Reconcile` returns success with the empty requeue hint and hands back the
client state untouched, whatever the client's list, create and delete
operations would answer; any other fetch error is returned as it is, the
state again untouched. On the in-memory store the fetch answers not-found
whenever no stored object has the requested namespace and name. -/
theorem C12_not_found_is_noop {σ : Type} (r : Client σ) (s : σ) (req : Request) :
    (r.Get s req.Namespace req.Name = .error .NotFound →
      Reconcile r s req = (({ Requeue := false, RequeueAfter := 0 }, none), s)) ∧
    (∀ e, IsNotFound e = false → r.Get s req.Namespace req.Name = .error e →
      Reconcile r s req = (({}, some e), s)) ∧
    (∀ st : Store, (∀ o ∈ st.objs, ¬ (o.Namespace = req.Namespace ∧ o.Name = req.Name)) →
      Reconcile fakeClient st req = (({}, none), st)) := by
  refine ⟨fun h => ?_, fun e he h => ?_, fun st h => ?_⟩
  · simp [Reconcile, getMyStatefulSet, h, IsNotFound]
  · simp [Reconcile, getMyStatefulSet, h, he]
  · have hget : fakeClient.Get st req.Namespace req.Name = .error .NotFound :=
      Store.get_not_found st _ _ h
    simp [Reconcile, getMyStatefulSet, hget, IsNotFound]

/-- C12 on a store without any desired-state object, and on a client whose
every call fails: with not-found the pass succeeds, with another error the
error comes back. -/
theorem C12_not_found_is_noop_witness :
    Reconcile fakeClient objectlessStore webReq = (({}, none), objectlessStore) ∧
    Reconcile (failingClient .NotFound) () webReq = (({}, none), ()) ∧
    Reconcile (failingClient (.Message "timeout")) () webReq
      = (({}, some (.Message "timeout")), ()) :=
  ⟨(C12_not_found_is_noop fakeClient objectlessStore webReq).2.2 objectlessStore
      (fun _ ho => absurd ho (List.not_mem_nil _)),
    (C12_not_found_is_noop (failingClient .NotFound) () webReq).1 rfl,
    (C12_not_found_is_noop (failingClient (.Message "timeout")) () webReq).2.1 _ rfl rfl⟩

/-! ## What a created instance carries -/

theorem updatePods_skip {σ : Type} (r : Client σ) (s : σ) (m : MyStatefulSet) (req : Request)
    (pre rest : List Pod) (h : ∀ q ∈ pre, podNeedsUpdate q m.Spec.Template = false) :
    updatePods r s m (pre ++ rest) req = updatePods r s m rest req := by
  induction pre with
  | nil => rfl
  | cons q pre ih =>
    have hq := h q (List.mem_cons_self _ _)
    simp only [List.cons_append, updatePods, hq, Bool.false_eq_true, if_false]
    exact ih (fun x hx => h x (List.mem_cons_of_mem _ hx))

/-- After a successful replacement the only stored instance under the
replaced name, in the request's namespace, is the one built by `createPod`. -/
theorem updatePods_fake_stored (m : MyStatefulSet) (req : Request) (s s' : Store)
    (pre post : List Pod) (p : Pod)
    (hrun : updatePods fakeClient s m (pre ++ p :: post) req = (none, s'))
    (hpre : ∀ q ∈ pre, podNeedsUpdate q m.Spec.Template = false)
    (hp : podNeedsUpdate p m.Spec.Template = true) :
    newPod req m p.Name ∈ s'.pods ∧
    ∀ q ∈ s'.pods, Pod.hasKey req.Namespace p.Name q = true → q = newPod req m p.Name := by
  rw [updatePods_skip fakeClient s m req pre _ hpre] at hrun
  simp only [updatePods, hp, if_true, fakeClient, Store.deletePod, createPod,
    Store.createPod] at hrun
  by_cases hex : s.pods.any (Pod.hasKey p.Namespace p.Name) = true
  · simp only [hex, if_true] at hrun
    by_cases hex2 : (s.pods.filter (fun q => !Pod.hasKey p.Namespace p.Name q)).any
        (Pod.hasKey (newPod req m p.Name).Namespace (newPod req m p.Name).Name) = true
    · simp [hex2] at hrun
    · simp only [hex2, Bool.false_eq_true, if_false, Prod.mk.injEq, true_and] at hrun
      subst hrun
      refine ⟨List.mem_append_right _ (List.mem_singleton_self _), fun q hq hkey => ?_⟩
      rcases List.mem_append.1 hq with hmem | hmem
      · exfalso
        apply hex2
        rw [List.any_eq_true]
        exact ⟨q, hmem, hkey⟩
      · exact List.mem_singleton.1 hmem
  · simp [hex] at hrun

/-- C13: `createPod` submits to the client exactly the instance `newPod`: it
has the requested name, the request's namespace, the template's pod spec and
annotations as they are, the template's labels with the owner label
`mystatefulset-name` set to the owner's name, and one controller owner
reference naming the desired-state object. After a successful replacement
the instance stored under the replaced name is that instance. -/
theorem C13_created_instance_content {σ : Type} (r : Client σ) (s : σ) (req : Request)
    (m : MyStatefulSet) (n : String) :
    createPod r s req m n = r.CreatePod s (newPod req m n) ∧
    (newPod req m n).Name = n ∧
    (newPod req m n).Namespace = req.Namespace ∧
    (newPod req m n).Spec = m.Spec.Template.Spec ∧
    (newPod req m n).Annotations = m.Spec.Template.Annotations ∧
    (∀ k, (newPod req m n).Labels.lookup k =
      if k = "mystatefulset-name" then some m.Name else m.Spec.Template.Labels.lookup k) ∧
    (newPod req m n).OwnerReferences =
      [{ Kind := "MyStatefulSet", Name := m.Name, Controller := true,
         BlockOwnerDeletion := true }] ∧
    (∀ (st st' : Store) (pre post : List Pod) (p : Pod),
      updatePods fakeClient st m (pre ++ p :: post) req = (none, st') →
      (∀ q ∈ pre, podNeedsUpdate q m.Spec.Template = false) →
      podNeedsUpdate p m.Spec.Template = true →
      newPod req m p.Name ∈ st'.pods ∧
      ∀ q ∈ st'.pods, q.Namespace = req.Namespace → q.Name = p.Name →
        q = newPod req m p.Name) := by
  refine ⟨?_, rfl, rfl, rfl, rfl, fun k => lookup_createLabels _ _ k, rfl, ?_⟩
  · unfold createPod
    rcases r.CreatePod s (newPod req m n) with ⟨e, s1⟩
    cases e <;> rfl
  · intro st st' pre post p hrun hpre hp
    obtain ⟨h1, h2⟩ := updatePods_fake_stored m req st st' pre post p hrun hpre hp
    refine ⟨h1, fun q hq hns hname => h2 q hq ?_⟩
    simp [Pod.hasKey, hns, hname]

/-- C13 on three instances of which `web-1` is the first on an outdated
image: after the pass the instance stored as `web-1` runs the template's
image. -/
theorem C13_created_instance_content_witness :
    newPod webReq webSet3 "web-1" ∈
        (updatePods fakeClient (storeOf webSet3 mixedPods) webSet3 mixedPods webReq).2.pods ∧
    ∀ q ∈ (updatePods fakeClient (storeOf webSet3 mixedPods) webSet3 mixedPods webReq).2.pods,
      q.Namespace = "default" → q.Name = "web-1" → q = newPod webReq webSet3 "web-1" :=
  (C13_created_instance_content fakeClient (storeOf webSet3 mixedPods) webReq webSet3
    "web-1").2.2.2.2.2.2.2 (storeOf webSet3 mixedPods) _
    [webPod "web-0" "nginx:latest"] [webPod "web-2" "nginx:1.19"] (webPod "web-1" "nginx:1.19")
    rfl
    (fun q hq => by
      rw [List.mem_singleton.1 hq]
      decide)
    (by decide)

/-- The one way an instance built by `createPod` comes out divergent from its
own template: the template carries the label `mystatefulset-name` with a
value other than the owner's name. -/
theorem newPod_not_divergent_iff (req : Request) (m : MyStatefulSet) (n : String) :
    podNeedsUpdate (newPod req m n) m.Spec.Template = false ↔
      ∀ v, m.Spec.Template.Labels.lookup "mystatefulset-name" = some v → v = m.Name := by
  constructor
  · intro h v hv
    by_contra hne
    have hdiv : podNeedsUpdate (newPod req m n) m.Spec.Template = true := by
      rw [podNeedsUpdate_iff]
      refine Or.inr (Or.inr (Or.inl ⟨ownerLabel, v, hv, ?_⟩))
      simp only [newPod, StrMap.index, lookup_createLabels, if_true, Option.getD_some]
      exact fun h' => hne h'.symm
    rw [h] at hdiv
    exact Bool.noConfusion hdiv
  · exact newPod_not_divergent req m n

/-- C14 at its failing input: the template carries
`mystatefulset-name=other` and the owner is `web`. `createLabels` puts the
owner's name under that key, and `podNeedsUpdate` finds the instance just
built divergent from the very template it was built from. -/
theorem C14_fresh_instance_divergent_on_clash :
    clashingSet.Spec.Template.Labels.lookup "mystatefulset-name" = some "other" ∧
    (newPod webReq clashingSet "web-0").Labels.lookup "mystatefulset-name" = some "web" ∧
    podNeedsUpdate (newPod webReq clashingSet "web-0") clashingSet.Spec.Template = true := by
  decide

/-- The instance built for the object `web`, whose template carries the label
`app` only, is not divergent. -/
theorem newPod_not_divergent_at_web :
    podNeedsUpdate (newPod webReq webSet3 "web-0") webSet3.Spec.Template = false :=
  (newPod_not_divergent_iff webReq webSet3 "web-0").2 (fun v hv => by
    have hnone : webSet3.Spec.Template.Labels.lookup "mystatefulset-name" = none := by decide
    rw [hnone] at hv
    exact Option.noConfusion hv)

/-! ## Names -/

theorem readDigit_digitChar (acc k : Nat) (hk : k < 10) :
    readDigit acc (Nat.digitChar k) = acc * 10 + k := by
  unfold readDigit
  congr 1
  interval_cases k <;> rfl

/-- Reading back the digits `Nat.toDigitsCore` writes in front of `ds`
gives the same value as reading `ds` with the number already read. -/
theorem foldl_toDigitsCore (fuel : Nat) :
    ∀ (n : Nat) (ds : List Char), n < fuel →
      (Nat.toDigitsCore 10 fuel n ds).foldl readDigit 0 = ds.foldl readDigit n := by
  induction fuel with
  | zero => intro n ds h; exact absurd h (Nat.not_lt_zero n)
  | succ fuel ih =>
    intro n ds h
    have hmod : n % 10 < 10 := Nat.mod_lt n (by decide)
    simp only [Nat.toDigitsCore]
    by_cases hq : n / 10 = 0
    · simp only [hq, if_true, List.foldl_cons, readDigit_digitChar 0 _ hmod]
      have : n % 10 = n := Nat.mod_eq_of_lt (by omega)
      simp [this]
    · simp only [hq, if_false]
      rw [ih (n / 10) _ (by omega), List.foldl_cons, readDigit_digitChar _ _ hmod]
      have : n / 10 * 10 + n % 10 = n := by omega
      rw [this]

theorem toString_nat_injective (i j : Nat) (h : toString i = toString j) : i = j := by
  have hd : Nat.toDigits 10 i = Nat.toDigits 10 j := by
    have := congrArg String.data h
    exact this
  have hi := foldl_toDigitsCore (i + 1) i [] (Nat.lt_succ_self i)
  have hj := foldl_toDigitsCore (j + 1) j [] (Nat.lt_succ_self j)
  simp only [List.foldl_nil] at hi hj
  have hi' : (Nat.toDigits 10 i).foldl readDigit 0 = i := hi
  have hj' : (Nat.toDigits 10 j).foldl readDigit 0 = j := hj
  rw [← hi', ← hj', hd]

theorem podName_injective (owner : String) (i j : Nat)
    (h : podName owner i = podName owner j) : i = j := by
  apply toString_nat_injective
  unfold podName at h
  have hdata := congrArg String.data h
  simp only [String.data_append] at hdata
  exact String.ext (List.append_cancel_left hdata)

/-- C15: the claim name the teardown derives from the instance name
owner-i equals the name under which `createPVCs` created the claim of
ordinal i; and for one owner, distinct ordinals give distinct instance names. -/
theorem C15_claim_naming_agrees (owner template : String) (i j : Nat) :
    pvcNameOfPod template (podName owner i) = pvcName template owner i ∧
    (i ≠ j → podName owner i ≠ podName owner j) := by
  refine ⟨?_, fun hne h => hne (podName_injective owner i j h)⟩
  simp only [pvcNameOfPod, podName, pvcName, String.append_assoc]

/-- C15 at owner `web`, claim template `data` and the ordinals 0 and 1. -/
theorem C15_claim_naming_agrees_witness :
    pvcNameOfPod "data" (podName "web" 0) = pvcName "data" "web" 0 ∧
    podName "web" 0 ≠ podName "web" 1 :=
  ⟨(C15_claim_naming_agrees "web" "data" 0 1).1,
    (C15_claim_naming_agrees "web" "data" 0 1).2 (by decide)⟩

end Sts
